import Mathlib

set_option maxRecDepth 8192

/-!
Shallow embedding of the core of `unpaywall-simple-query-tool` (`main.py`):
the per-identifier upstream fetch (`fetch_doi_data`), the batch aggregation
endpoint (`process_dois`), and the two derived encodings (JSON lines via
`json.dumps`, CSV via `csv.DictWriter`).

JSON values decoded by `response.json()` are modelled by the inductive
`Json`; a decoded JSON object (a Python dict) is modelled as an ordered
association list `Obj`.  The upstream HTTP collaborator is modelled as a
function from the identifier to an `UpstreamResult`, covering the four ways
a request can end in the source: a 2xx body, an `httpx.HTTPStatusError`, an
`httpx.RequestError`, or any other exception.
-/

inductive Json where
  | null : Json
  | bool (b : Bool) : Json
  | num (n : Int) : Json
  | str (s : String) : Json
  | arr (elems : List Json) : Json
  | obj (fields : List (String × Json)) : Json
deriving Repr

/-- A decoded JSON object (Python dict), as an insertion-ordered association list. -/
abbrev Obj := List (String × Json)

mutual
def Json.beq : Json → Json → Bool
  | .null, .null => true
  | .bool a, .bool b => a == b
  | .num a, .num b => a == b
  | .str a, .str b => a == b
  | .arr a, .arr b => Json.beqList a b
  | .obj a, .obj b => Json.beqFields a b
  | _, _ => false

def Json.beqList : List Json → List Json → Bool
  | [], [] => true
  | a :: as_, b :: bs => Json.beq a b && Json.beqList as_ bs
  | _, _ => false

def Json.beqFields : List (String × Json) → List (String × Json) → Bool
  | [], [] => true
  | a :: as_, b :: bs => (a.1 == b.1 && Json.beq a.2 b.2) && Json.beqFields as_ bs
  | _, _ => false
end

mutual
theorem Json.beq_iff : ∀ a b : Json, Json.beq a b = true ↔ a = b
  | .null, b => by cases b <;> simp [Json.beq]
  | .bool x, b => by cases b <;> simp [Json.beq]
  | .num x, b => by cases b <;> simp [Json.beq]
  | .str x, b => by cases b <;> simp [Json.beq]
  | .arr xs, b => by
      cases b <;> simp [Json.beq]
      exact Json.beqList_iff xs _
  | .obj fs, b => by
      cases b <;> simp [Json.beq]
      exact Json.beqFields_iff fs _

theorem Json.beqList_iff : ∀ a b : List Json, Json.beqList a b = true ↔ a = b
  | [], b => by cases b <;> simp [Json.beqList]
  | x :: xs, b => by
      cases b with
      | nil => simp [Json.beqList]
      | cons y ys =>
        simp [Json.beqList, Json.beq_iff x y, Json.beqList_iff xs ys]

theorem Json.beqFields_iff : ∀ a b : List (String × Json), Json.beqFields a b = true ↔ a = b
  | [], b => by cases b <;> simp [Json.beqFields]
  | x :: xs, b => by
      cases b with
      | nil => simp [Json.beqFields]
      | cons y ys =>
        simp [Json.beqFields, Json.beq_iff x.2 y.2, Json.beqFields_iff xs ys,
          Prod.ext_iff, and_assoc]
end

instance : DecidableEq Json := fun a b =>
  decidable_of_iff (Json.beq a b = true) (Json.beq_iff a b)

/-- Python `d.get(k)` on a dict: the value at key `k`, if present. -/
def Obj.get (o : Obj) (k : String) : Option Json :=
  (o.find? (fun p => p.1 = k)).map Prod.snd

/-- Python `d.get(k, default)`. -/
def Obj.getD (o : Obj) (k : String) (d : Json) : Json :=
  (Obj.get o k).getD d

/-- Python `k in d` on a dict. -/
def Obj.hasKey (o : Obj) (k : String) : Bool :=
  o.any (fun p => p.1 = k)

/-- Python truthiness of a JSON-decoded value (`if not x`). -/
def Json.isFalsy : Json → Bool
  | .null => true
  | .bool b => !b
  | .num n => n = 0
  | .str s => s = ""
  | .arr l => l.isEmpty
  | .obj l => l.isEmpty

/-- Fields of a decoded JSON object; `[]` for non-objects (a truthy non-dict
`best_oa_location` would raise `AttributeError` in the source; no claim
exercises that corner). -/
def Json.fields : Json → Obj
  | .obj l => l
  | _ => []

/-! ### The upstream collaborator -/

/-- Outcome of the single upstream GET in `fetch_doi_data`, as classified by
its `try`/`except` arms. -/
inductive UpstreamResult where
  | ok (body : Obj) : UpstreamResult
  | httpStatus (code : Nat) (msg : String) : UpstreamResult
  | transport (msg : String) : UpstreamResult
  | unexpected (msg : String) : UpstreamResult
deriving Repr, DecidableEq

/-- The upstream endpoint: one classified response per identifier. -/
abbrev Upstream := String → UpstreamResult

/-! ### fetch_doi_data -/

def invalidObj (doi : String) : Obj :=
  [("doi", Json.str doi),
   ("error", Json.str "Invalid DOI format"),
   ("message", Json.str "DOI must start with '10.'")]

def httpErrObj (doi : String) (code : Nat) (msg : String) : Obj :=
  [("doi", Json.str doi),
   ("error", Json.str ("HTTP error: " ++ toString code)),
   ("message", Json.str msg)]

def transportErrObj (doi : String) (msg : String) : Obj :=
  [("doi", Json.str doi),
   ("error", Json.str "Request error"),
   ("message", Json.str msg)]

def unexpectedErrObj (doi : String) (msg : String) : Obj :=
  [("doi", Json.str doi),
   ("error", Json.str "Unexpected error"),
   ("message", Json.str msg)]

/-- Python `s.startswith(p)`, at the character level. -/
def pyStartsWith (s p : String) : Bool := p.data.isPrefixOf s.data

/-- `fetch_doi_data` from `main.py`.  Returns the result dict together with
the number of network calls it made (0 on the invalid-format short-circuit,
1 otherwise). -/
def fetch_doi_data (doi : String) (upstream : Upstream) : Obj × Nat :=
  if !pyStartsWith doi "10." then
    (invalidObj doi, 0)
  else
    match upstream doi with
    | .ok body => (body, 1)
    | .httpStatus code msg => (httpErrObj doi code msg, 1)
    | .transport msg => (transportErrObj doi msg, 1)
    | .unexpected msg => (unexpectedErrObj doi msg, 1)

/-! ### csv_dict_from_response_dict -/

/-- The fixed CSV column list, in the insertion order of
`csv_dict_from_response_dict`. -/
def csvFieldnames : List String :=
  ["doi", "doi_url", "is_oa", "oa_status", "genre", "is_paratext",
   "journal_name", "journal_issns", "journal_issn_l", "journal_is_oa",
   "journal_is_in_doaj", "publisher", "published_date", "data_standard",
   "best_oa_url", "best_oa_url_is_pdf", "best_oa_evidence", "best_oa_host",
   "best_oa_version", "best_oa_license"]

/-- The row dict built by `csv_dict_from_response_dict` for nonempty input. -/
def csvRowOf (data : Obj) : Obj :=
  let bl := Obj.getD data "best_oa_location" Json.null
  let bld : Obj := if bl.isFalsy then [] else bl.fields
  [("doi", Obj.getD data "doi" Json.null),
   ("doi_url", Obj.getD data "doi_url" Json.null),
   ("is_oa", Obj.getD data "is_oa" Json.null),
   ("oa_status", Obj.getD data "oa_status" Json.null),
   ("genre", Obj.getD data "genre" Json.null),
   ("is_paratext", Obj.getD data "is_paratext" Json.null),
   ("journal_name", Obj.getD data "journal_name" Json.null),
   ("journal_issns", Obj.getD data "journal_issns" Json.null),
   ("journal_issn_l", Obj.getD data "journal_issn_l" Json.null),
   ("journal_is_oa", Obj.getD data "journal_is_oa" Json.null),
   ("journal_is_in_doaj", Obj.getD data "journal_is_in_doaj" Json.null),
   ("publisher", Obj.getD data "publisher" Json.null),
   ("published_date", Obj.getD data "published_date" Json.null),
   ("data_standard", Obj.getD data "data_standard" Json.null),
   ("best_oa_url", Obj.getD bld "url" (Json.str "")),
   ("best_oa_url_is_pdf",
     Json.bool (if Obj.getD bld "url_for_pdf" (Json.str "") = Json.str "" then false else true)),
   ("best_oa_evidence", Obj.getD bld "evidence" Json.null),
   ("best_oa_host", Obj.getD bld "host_type" Json.null),
   ("best_oa_version", Obj.getD bld "version" Json.null),
   ("best_oa_license", Obj.getD bld "license" Json.null)]

def csv_dict_from_response_dict (data : Obj) : Option Obj :=
  if data.isEmpty then none else some (csvRowOf data)

/-! ### json.dumps

Models Python `json.dumps` with its default separators `", "` / `": "` and
its escape table (`"`, `\`, and the named control escapes; other control
characters as `\u00XX`).  Non-ASCII characters are emitted unescaped
rather than as `\uXXXX` (the `ensure_ascii` representation differs only in
how such characters are spelled; the properties proved here — line
structure, newline-freedom, round-trip — are the same either way). -/

def hexDigitChar (n : Nat) : Char :=
  if n < 10 then Char.ofNat (48 + n) else Char.ofNat (87 + n)

def escapeChar (c : Char) : List Char :=
  if c = '"' then ['\\', '"']
  else if c = '\\' then ['\\', '\\']
  else if c = '\x08' then ['\\', 'b']
  else if c = '\x0c' then ['\\', 'f']
  else if c = '\n' then ['\\', 'n']
  else if c = '\r' then ['\\', 'r']
  else if c = '\t' then ['\\', 't']
  else if c.toNat < 32 then
    ['\\', 'u', '0', '0', hexDigitChar (c.toNat / 16), hexDigitChar (c.toNat % 16)]
  else [c]

def escapeList (cs : List Char) : List Char :=
  cs.flatMap escapeChar

def dumpStr (s : String) : String :=
  "\"" ++ (escapeList s.data).asString ++ "\""

def digitChar (n : Nat) : Char := Char.ofNat (48 + n)

def natToCharsCore : Nat → Nat → List Char → List Char
  | 0, _, acc => acc
  | fuel + 1, n, acc =>
    if n < 10 then digitChar n :: acc
    else natToCharsCore fuel (n / 10) (digitChar (n % 10) :: acc)

def natToChars (n : Nat) : List Char := natToCharsCore (n + 1) n []

def intToChars : Int → List Char
  | .ofNat n => natToChars n
  | .negSucc m => '-' :: natToChars (m + 1)

mutual
def Json.dumps : Json → String
  | .null => "null"
  | .bool b => if b then "true" else "false"
  | .num n => (intToChars n).asString
  | .str s => dumpStr s
  | .arr [] => "[]"
  | .arr (x :: xs) => "[" ++ Json.dumps x ++ dumpsTailElems xs
  | .obj [] => "\x7b\x7d"
  | .obj (kv :: fs) => "\x7b" ++ dumpStr kv.1 ++ ": " ++ Json.dumps kv.2 ++ dumpsTailFields fs

def dumpsTailElems : List Json → String
  | [] => "]"
  | x :: xs => ", " ++ Json.dumps x ++ dumpsTailElems xs

def dumpsTailFields : List (String × Json) → String
  | [] => "\x7d"
  | kv :: fs => ", " ++ dumpStr kv.1 ++ ": " ++ Json.dumps kv.2 ++ dumpsTailFields fs
end

/-! ### csv.DictWriter

Models the `csv` module's rendering: `QUOTE_MINIMAL` quoting, `\r\n` row
terminator, `None` written as the empty field, and non-string scalars
converted with `str()` (containers with `repr()`, which no claim touches). -/

mutual
def pyRepr : Json → String
  | .null => "None"
  | .bool b => if b then "True" else "False"
  | .num n => (intToChars n).asString
  | .str s => "'" ++ s ++ "'"
  | .arr [] => "[]"
  | .arr (x :: xs) => "[" ++ pyRepr x ++ pyReprTailElems xs
  | .obj [] => "\x7b\x7d"
  | .obj (kv :: fs) => "\x7b'" ++ kv.1 ++ "': " ++ pyRepr kv.2 ++ pyReprTailFields fs

def pyReprTailElems : List Json → String
  | [] => "]"
  | x :: xs => ", " ++ pyRepr x ++ pyReprTailElems xs

def pyReprTailFields : List (String × Json) → String
  | [] => "\x7d"
  | kv :: fs => ", '" ++ kv.1 ++ "': " ++ pyRepr kv.2 ++ pyReprTailFields fs
end

/-- The string the `csv` writer puts in a cell for a given value. -/
def cellString : Json → String
  | .null => ""
  | .bool b => if b then "True" else "False"
  | .num n => (intToChars n).asString
  | .str s => s
  | .arr xs => pyRepr (.arr xs)
  | .obj fs => pyRepr (.obj fs)

def csvNeedsQuote (s : String) : Bool :=
  s.data.any (fun c => c = ',' || c = '"' || c = '\r' || c = '\n')

def csvQuote (s : String) : String :=
  if csvNeedsQuote s then
    "\"" ++ (s.data.flatMap (fun c => if c = '"' then ['"', '"'] else [c])).asString ++ "\""
  else s

def renderCsvLine (cells : List String) : String :=
  String.intercalate "," (cells.map csvQuote) ++ "\r\n"

def renderCsv (fieldnames : List String) (rows : List Obj) : String :=
  renderCsvLine fieldnames ++
    String.join (rows.map (fun row =>
      renderCsvLine (fieldnames.map (fun k => cellString (Obj.getD row k (Json.str ""))))))

/-! ### process_dois -/

/-- Mutable state of the aggregation loop in `process_dois`. -/
structure AggState where
  doi_results : List (Json × Obj)
  error_results : List (Json × Obj)
  jsonl_results : List Obj
  csv_data : List Obj
  csv_fieldnames : List String
deriving Repr, DecidableEq

def initAggState : AggState := ⟨[], [], [], [], []⟩

/-- Python dict assignment `d[k] = v`: overwrite in place, or append. -/
def dictInsert (d : List (Json × Obj)) (k : Json) (v : Obj) : List (Json × Obj) :=
  if d.any (fun p => p.1 = k) then
    d.map (fun p => if p.1 = k then (k, v) else p)
  else d ++ [(k, v)]

/-- Python dict lookup `d.get(k)` for the payload mappings: the value at the
first (unique) matching key. -/
def dictLookup : List (Json × Obj) → Json → Option Obj
  | [], _ => none
  | p :: t, k => if p.1 = k then some p.2 else dictLookup t k

/-- The error entry stored in `error_results`. -/
def errEntry (r : Obj) : Obj :=
  [("error", Obj.getD r "error" Json.null),
   ("message", Obj.getD r "message" Json.null)]

/-- One iteration of the `for result in results:` loop in `process_dois`. -/
def aggStep (s : AggState) (result : Obj) : AggState :=
  if result.hasKey "doi" then
    let doi := Obj.getD result "doi" Json.null
    let s1 := { s with doi_results := dictInsert s.doi_results doi result }
    let s2 :=
      if !result.hasKey "error" then
        let s1a := { s1 with jsonl_results := s1.jsonl_results ++ [result] }
        match csv_dict_from_response_dict result with
        | none => s1a
        | some csvResult =>
          if csvResult.isEmpty then s1a
          else
            let s1b :=
              if s1a.csv_fieldnames.isEmpty then
                { s1a with csv_fieldnames := csvResult.map Prod.fst }
              else s1a
            { s1b with csv_data := s1b.csv_data ++ [csvResult] }
      else s1
    if result.hasKey "error" then
      { s2 with error_results := dictInsert s2.error_results doi (errEntry result) }
    else s2
  else s

/-- The payload returned by the `/v2/dois` endpoint. -/
structure Payload where
  results : List (Json × Obj)
  errors_dict : List (Json × Obj)
  total : Nat
  success : Nat
  errors : Nat
  jsonl : String
  csv : String
deriving Repr, DecidableEq

/-- `process_dois` from `main.py`: fan out `fetch_doi_data` over the input
list (asyncio.gather returns the results in task order, i.e. input order),
aggregate into the keyed mappings, counts, and the two encodings. -/
def process_dois (dois : List String) (upstream : Upstream) : Payload :=
  let results := dois.map (fun d => (fetch_doi_data d upstream).1)
  let st := results.foldl aggStep initAggState
  let jsonl_output :=
    String.join (st.jsonl_results.map (fun item => Json.dumps (Json.obj item) ++ "\n"))
  let csv_output :=
    if st.csv_data.isEmpty then "" else renderCsv st.csv_fieldnames st.csv_data
  { results := st.doi_results
    errors_dict := st.error_results
    total := results.length
    success := (results.filter (fun r => !r.hasKey "error")).length
    errors := (results.filter (fun r => r.hasKey "error")).length
    jsonl := jsonl_output
    csv := csv_output }

/-! ### Derived views of the batch run, used to characterize `process_dois` -/

/-- The result dict produced for one identifier. -/
def fetchObj (d : String) (u : Upstream) : Obj := (fetch_doi_data d u).1

/-- All result dicts of a batch, in processing (input) order. -/
def outcomesOf (dois : List String) (u : Upstream) : List Obj :=
  dois.map (fun d => fetchObj d u)

/-- The dict key a result is stored under: its own `doi` field. -/
def keyOf (r : Obj) : Json := Obj.getD r "doi" Json.null

/-- The `(key, result)` pairs inserted into `results`, in processing order:
only results that carry a `doi` key. -/
def keyedOutcomes (dois : List String) (u : Upstream) : List (Json × Obj) :=
  ((outcomesOf dois u).filter (fun r => r.hasKey "doi")).map (fun r => (keyOf r, r))

/-- The `(key, entry)` pairs inserted into `errors_dict`, in processing order. -/
def errKeyedOutcomes (dois : List String) (u : Upstream) : List (Json × Obj) :=
  ((outcomesOf dois u).filter (fun r => r.hasKey "doi" && r.hasKey "error")).map
    (fun r => (keyOf r, errEntry r))

/-- The successful outcomes that carry a `doi` key, in processing order:
exactly the records serialized into the jsonl and csv encodings. -/
def succWithDoi (dois : List String) (u : Upstream) : List Obj :=
  (outcomesOf dois u).filter (fun r => r.hasKey "doi" && !r.hasKey "error")

def insStep (d : List (Json × Obj)) (p : Json × Obj) : List (Json × Obj) :=
  dictInsert d p.1 p.2

theorem hasKey_ne_nil {r : Obj} {k : String} (h : Obj.hasKey r k = true) :
    r.isEmpty = false := by
  cases r with
  | nil => simp [Obj.hasKey] at h
  | cons p t => rfl

theorem csvRowOf_isEmpty (data : Obj) : (csvRowOf data).isEmpty = false := by
  simp [csvRowOf]

theorem csvRowOf_keys (data : Obj) : (csvRowOf data).map Prod.fst = csvFieldnames := by
  simp [csvRowOf, csvFieldnames]

theorem csvRowOf_ne_nil (data : Obj) : csvRowOf data ≠ [] := by
  simp [csvRowOf]

theorem csvFieldnames_isEmpty : csvFieldnames.isEmpty = false := by
  simp [csvFieldnames]

/-- Closed form of one aggregation-loop iteration. -/
theorem aggStep_eq (s : AggState) (r : Obj) :
    aggStep s r =
      if r.hasKey "doi" then
        if r.hasKey "error" then
          { s with
            doi_results := dictInsert s.doi_results (keyOf r) r
            error_results := dictInsert s.error_results (keyOf r) (errEntry r) }
        else
          { s with
            doi_results := dictInsert s.doi_results (keyOf r) r
            jsonl_results := s.jsonl_results ++ [r]
            csv_data := s.csv_data ++ [csvRowOf r]
            csv_fieldnames :=
              if s.csv_fieldnames.isEmpty then csvFieldnames else s.csv_fieldnames }
      else s := by
  by_cases h1 : r.hasKey "doi"
  · by_cases h2 : r.hasKey "error"
    · simp [aggStep, h1, h2, keyOf]
    · simp only [aggStep, h1, h2, if_true, if_false, Bool.not_false, Bool.not_true, ite_true,
        ite_false, csv_dict_from_response_dict, hasKey_ne_nil h1, csvRowOf_isEmpty, keyOf]
      by_cases h3 : s.csv_fieldnames.isEmpty <;>
        simp [h3, csvRowOf_keys, csvRowOf_ne_nil]
  · simp [aggStep, h1]

/-! ### Loop-fusion characterization of the aggregation fold -/

theorem foldl_aggStep_doi_results (rs : List Obj) (s : AggState) :
    (rs.foldl aggStep s).doi_results =
      ((rs.filter (fun r => r.hasKey "doi")).map (fun r => (keyOf r, r))).foldl insStep
        s.doi_results := by
  induction rs generalizing s with
  | nil => rfl
  | cons r t ih =>
      rw [List.foldl_cons, ih, aggStep_eq]
      by_cases h1 : r.hasKey "doi"
      · by_cases h2 : r.hasKey "error" <;> simp [h1, h2, insStep]
      · simp [h1]

theorem foldl_aggStep_error_results (rs : List Obj) (s : AggState) :
    (rs.foldl aggStep s).error_results =
      ((rs.filter (fun r => r.hasKey "doi" && r.hasKey "error")).map
          (fun r => (keyOf r, errEntry r))).foldl insStep s.error_results := by
  induction rs generalizing s with
  | nil => rfl
  | cons r t ih =>
      rw [List.foldl_cons, ih, aggStep_eq]
      by_cases h1 : r.hasKey "doi"
      · by_cases h2 : r.hasKey "error" <;> simp [h1, h2, insStep]
      · simp [h1]

theorem foldl_aggStep_jsonl_results (rs : List Obj) (s : AggState) :
    (rs.foldl aggStep s).jsonl_results =
      s.jsonl_results ++ rs.filter (fun r => r.hasKey "doi" && !r.hasKey "error") := by
  induction rs generalizing s with
  | nil => simp
  | cons r t ih =>
      rw [List.foldl_cons, ih, aggStep_eq]
      by_cases h1 : r.hasKey "doi"
      · by_cases h2 : r.hasKey "error" <;> simp [h1, h2]
      · simp [h1]

theorem foldl_aggStep_csv_data (rs : List Obj) (s : AggState) :
    (rs.foldl aggStep s).csv_data =
      s.csv_data ++ (rs.filter (fun r => r.hasKey "doi" && !r.hasKey "error")).map csvRowOf := by
  induction rs generalizing s with
  | nil => simp
  | cons r t ih =>
      rw [List.foldl_cons, ih, aggStep_eq]
      by_cases h1 : r.hasKey "doi"
      · by_cases h2 : r.hasKey "error" <;> simp [h1, h2]
      · simp [h1]

theorem foldl_aggStep_csv_fieldnames (rs : List Obj) (s : AggState) :
    (rs.foldl aggStep s).csv_fieldnames =
      if s.csv_fieldnames.isEmpty &&
          !(rs.filter (fun r => r.hasKey "doi" && !r.hasKey "error")).isEmpty then
        csvFieldnames
      else s.csv_fieldnames := by
  induction rs generalizing s with
  | nil => simp
  | cons r t ih =>
      rw [List.foldl_cons, ih, aggStep_eq]
      by_cases h1 : r.hasKey "doi"
      · by_cases h2 : r.hasKey "error"
        · simp [h1, h2]
        · by_cases h3 : s.csv_fieldnames.isEmpty <;>
            simp [h1, h2, h3, csvFieldnames_isEmpty]
      · simp [h1]

/-! ### Componentwise characterization of `process_dois` -/

theorem process_dois_results (dois : List String) (u : Upstream) :
    (process_dois dois u).results = (keyedOutcomes dois u).foldl insStep [] := by
  simp [process_dois, keyedOutcomes, outcomesOf, fetchObj,
    foldl_aggStep_doi_results, initAggState]

theorem process_dois_errors_dict (dois : List String) (u : Upstream) :
    (process_dois dois u).errors_dict = (errKeyedOutcomes dois u).foldl insStep [] := by
  simp [process_dois, errKeyedOutcomes, outcomesOf, fetchObj,
    foldl_aggStep_error_results, initAggState]

theorem process_dois_jsonl (dois : List String) (u : Upstream) :
    (process_dois dois u).jsonl =
      String.join ((succWithDoi dois u).map (fun r => Json.dumps (Json.obj r) ++ "\n")) := by
  simp [process_dois, succWithDoi, outcomesOf, fetchObj,
    foldl_aggStep_jsonl_results, initAggState]

theorem process_dois_csv (dois : List String) (u : Upstream) :
    (process_dois dois u).csv =
      if (succWithDoi dois u).isEmpty then ""
      else renderCsv csvFieldnames ((succWithDoi dois u).map csvRowOf) := by
  simp only [process_dois, succWithDoi, outcomesOf, fetchObj,
    foldl_aggStep_csv_data, foldl_aggStep_csv_fieldnames, initAggState]
  by_cases h : (dois.map (fun d => (fetch_doi_data d u).1)).filter
      (fun r => r.hasKey "doi" && !r.hasKey "error") = [] <;>
    simp [h]

theorem process_dois_total (dois : List String) (u : Upstream) :
    (process_dois dois u).total = dois.length := by
  simp [process_dois]

theorem process_dois_success (dois : List String) (u : Upstream) :
    (process_dois dois u).success =
      ((outcomesOf dois u).filter (fun r => !r.hasKey "error")).length := by
  simp [process_dois, outcomesOf, fetchObj]

theorem process_dois_errors (dois : List String) (u : Upstream) :
    (process_dois dois u).errors =
      ((outcomesOf dois u).filter (fun r => r.hasKey "error")).length := by
  simp [process_dois, outcomesOf, fetchObj]

/-! ### Example upstream stubs used in witnesses and counterexamples -/

/-- Upstream returning a record whose `doi` field echoes the queried identifier. -/
def uEcho : Upstream := fun d => .ok [("doi", Json.str d), ("x", Json.num 1)]

/-- Upstream returning a 2xx record that lacks a top-level `doi` key. -/
def uNoDoi : Upstream := fun _ => .ok [("title", Json.str "t")]

/-- Upstream that always fails with a 404. -/
def u404 : Upstream := fun _ => .httpStatus 404 "not found"

/-! ### C1 -/

/-- C1: for every well-formed input list (length at most 1000), the payload
satisfies `success + errors = total = length of the input list`, where
`success` counts outcomes without an `error` tag and `errors` counts
outcomes with one. -/
theorem claim_C1_counts (dois : List String) (u : Upstream) (h : dois.length ≤ 1000) :
    (process_dois dois u).success + (process_dois dois u).errors =
        (process_dois dois u).total ∧
      (process_dois dois u).total = dois.length := by
  refine ⟨?_, process_dois_total dois u⟩
  rw [process_dois_success, process_dois_errors, process_dois_total]
  have hlen : dois.length = (outcomesOf dois u).length := by
    simp [outcomesOf]
  rw [hlen]
  have hsplit :=
    List.length_eq_length_filter_add (l := outcomesOf dois u) (fun r => !r.hasKey "error")
  simpa [Bool.not_not] using hsplit.symm

/-- Witness for C1 at a concrete batch of two identifiers. -/
theorem claim_C1_counts_witness :
    (process_dois ["10.1/a", "nope"] uEcho).success +
        (process_dois ["10.1/a", "nope"] uEcho).errors =
        (process_dois ["10.1/a", "nope"] uEcho).total ∧
      (process_dois ["10.1/a", "nope"] uEcho).total = 2 :=
  claim_C1_counts ["10.1/a", "nope"] uEcho (by decide)

/-! ### C4 -/

/-- C4: an identifier that does not start with `"10."` yields the
`Invalid DOI format` error outcome and zero network calls. -/
theorem claim_C4_invalid_format (doi : String) (u : Upstream)
    (h : pyStartsWith doi "10." = false) :
    fetch_doi_data doi u = (invalidObj doi, 0) ∧
      Obj.get (invalidObj doi) "error" = some (Json.str "Invalid DOI format") := by
  constructor
  · simp [fetch_doi_data, h]
  · rfl

/-- Witness for C4 at the identifier `"abc"`. -/
theorem claim_C4_invalid_format_witness :
    fetch_doi_data "abc" uEcho = (invalidObj "abc", 0) ∧
      Obj.get (invalidObj "abc") "error" = some (Json.str "Invalid DOI format") :=
  claim_C4_invalid_format "abc" uEcho (by decide)


/-! ### Python-dict lemmas: lookup, overwrite, keys -/

theorem dictLookup_map_overwrite (t : List (Json × Obj)) (k k' : Json) (v : Obj)
    (hne : k' ≠ k) :
    dictLookup (t.map (fun p => if p.1 = k then (k, v) else p)) k' = dictLookup t k' := by
  induction t with
  | nil => rfl
  | cons q t ih =>
      by_cases hq : q.1 = k
      · have h1 : k ≠ k' := fun h => hne h.symm
        have h2 : ¬(q.1 = k') := by rw [hq]; exact h1
        simp [dictLookup, hq, h1, h2, ih]
      · by_cases hq' : q.1 = k'
        · simp [dictLookup, hq, hq', hne]
        · simp [dictLookup, hq, hq', ih]

theorem dictLookup_map_self (d : List (Json × Obj)) (k : Json) (v : Obj)
    (h : d.any (fun p => p.1 = k) = true) :
    dictLookup (d.map (fun p => if p.1 = k then (k, v) else p)) k = some v := by
  induction d with
  | nil => simp at h
  | cons q t ih =>
      by_cases hq : q.1 = k
      · simp [dictLookup, hq]
      · have ht : t.any (fun p => p.1 = k) = true := by
          simpa [List.any_cons, hq] using h
        simp [dictLookup, hq, ih ht]

theorem dictLookup_append_single (d : List (Json × Obj)) (k : Json) (v : Obj) (k' : Json) :
    dictLookup (d ++ [(k, v)]) k' =
      if k' = k then
        match dictLookup d k' with
        | some w => some w
        | none => some v
      else dictLookup d k' := by
  induction d with
  | nil =>
      by_cases hk : k' = k
      · simp [dictLookup, hk]
      · have hk2 : ¬(k = k') := fun h => hk h.symm
        simp [dictLookup, hk, hk2]
  | cons q t ih =>
      by_cases hk : k' = k
      · subst hk
        by_cases hq : q.1 = k'
        · simp [dictLookup, hq]
        · simp [dictLookup, hq, ih]
      · by_cases hq : q.1 = k'
        · simp [dictLookup, hq, hk]
        · simp [dictLookup, hq, hk, ih]

theorem dictLookup_dictInsert (d : List (Json × Obj)) (k : Json) (v : Obj) (k' : Json) :
    dictLookup (dictInsert d k v) k' = if k' = k then some v else dictLookup d k' := by
  by_cases h : d.any (fun p => p.1 = k)
  · simp only [dictInsert, h, if_true]
    by_cases hk : k' = k
    · subst hk
      rw [if_pos rfl]
      exact dictLookup_map_self d k' v h
    · rw [if_neg hk]
      exact dictLookup_map_overwrite d k k' v hk
  · simp only [dictInsert]
    rw [if_neg h, dictLookup_append_single]
    by_cases hk : k' = k
    · subst hk
      have hnone : dictLookup d k' = none := by
        induction d with
        | nil => rfl
        | cons q t ih =>
            have hq : ¬(q.1 = k') := by
              intro hqk
              exact h (List.any_eq_true.mpr ⟨q, List.mem_cons_self q t, by simpa using hqk⟩)
            have ht : ¬(t.any (fun p => p.1 = k') = true) := by
              intro hta
              obtain ⟨p, hp, hpk⟩ := List.any_eq_true.mp hta
              exact h (List.any_eq_true.mpr ⟨p, List.mem_cons_of_mem q hp, hpk⟩)
            simp [dictLookup, hq, ih ht]
      simp [hnone]
    · simp [hk]

theorem dictLookup_foldl (l : List (Json × Obj)) (init : List (Json × Obj)) (k : Json) :
    dictLookup (l.foldl insStep init) k =
      match (l.filter (fun p => p.1 = k)).getLast? with
      | some p => some p.2
      | none => dictLookup init k := by
  induction l generalizing init with
  | nil => simp
  | cons p t ih =>
      rw [List.foldl_cons, ih]
      cases hlast : (t.filter (fun p => p.1 = k)).getLast? with
      | some q =>
          have hne : t.filter (fun p => p.1 = k) ≠ [] := by
            intro hnil
            rw [hnil] at hlast
            simp at hlast
          obtain ⟨a, l', hfe⟩ := List.exists_cons_of_ne_nil hne
          by_cases hp : p.1 = k
          · have hfil : (p :: t).filter (fun p => p.1 = k) = p :: a :: l' := by
              rw [List.filter_cons, if_pos (by simp [hp]), hfe]
            rw [hfil, List.getLast?_cons_cons, ← hfe, hlast]
          · have hfil : (p :: t).filter (fun q => q.1 = k) = t.filter (fun q => q.1 = k) := by
              rw [List.filter_cons, if_neg (by simp [hp])]
            rw [hfil, hlast]
      | none =>
          have hnil : t.filter (fun p => p.1 = k) = [] := by
            cases hf : t.filter (fun p => p.1 = k) with
            | nil => rfl
            | cons a l' =>
                rw [hf, List.getLast?_cons] at hlast
                simp at hlast
          by_cases hp : p.1 = k
          · have hfil : (p :: t).filter (fun q => q.1 = k) = [p] := by
              rw [List.filter_cons, if_pos (by simp [hp]), hnil]
            rw [hfil]
            simp [insStep, dictLookup_dictInsert, hp.symm]
          · have hfil : (p :: t).filter (fun q => q.1 = k) = ([] : List (Json × Obj)) := by
              rw [List.filter_cons, if_neg (by simp [hp]), hnil]
            rw [hfil]
            have hk : ¬(k = p.1) := fun h => hp h.symm
            simp only [insStep, dictLookup_dictInsert]
            rw [if_neg hk]
            simp

theorem keys_dictInsert (d : List (Json × Obj)) (k : Json) (v : Obj) :
    (dictInsert d k v).map Prod.fst =
      if d.any (fun p => p.1 = k) then d.map Prod.fst else d.map Prod.fst ++ [k] := by
  by_cases h : d.any (fun p => p.1 = k)
  · simp only [dictInsert, h, if_true, List.map_map]
    refine List.map_congr_left ?_
    intro p _
    by_cases hp : p.1 = k <;> simp [hp]
  · simp only [dictInsert]
    rw [if_neg h, if_neg h, List.map_append]
    rfl

theorem mem_keys_iff_any (d : List (Json × Obj)) (k : Json) :
    d.any (fun p => p.1 = k) = true ↔ k ∈ d.map Prod.fst := by
  simp [List.any_eq_true, List.mem_map]

theorem keys_foldl_nodup (l : List (Json × Obj)) (init : List (Json × Obj))
    (h : (init.map Prod.fst).Nodup) :
    ((l.foldl insStep init).map Prod.fst).Nodup := by
  induction l generalizing init with
  | nil => exact h
  | cons p t ih =>
      rw [List.foldl_cons]
      refine ih _ ?_
      rw [insStep, keys_dictInsert]
      by_cases hmem : init.any (fun q => q.1 = p.1)
      · simpa [hmem] using h
      · have hnotin : p.1 ∉ init.map Prod.fst := fun hin =>
          hmem ((mem_keys_iff_any init p.1).mpr hin)
        simp [hmem, List.nodup_append, h, hnotin]

theorem keys_foldl_toFinset (l : List (Json × Obj)) (init : List (Json × Obj)) :
    ((l.foldl insStep init).map Prod.fst).toFinset =
      (init.map Prod.fst).toFinset ∪ (l.map Prod.fst).toFinset := by
  induction l generalizing init with
  | nil => simp
  | cons p t ih =>
      rw [List.foldl_cons, ih]
      rw [insStep, keys_dictInsert]
      by_cases hmem : init.any (fun q => q.1 = p.1)
      · have hin : p.1 ∈ (init.map Prod.fst).toFinset := by
          rw [List.mem_toFinset]
          exact (mem_keys_iff_any init p.1).mp hmem
        rw [if_pos hmem]
        ext x
        simp only [Finset.mem_union, List.mem_toFinset, List.map_cons, List.mem_cons]
        constructor
        · rintro (hx | hx)
          · exact Or.inl hx
          · exact Or.inr (Or.inr hx)
        · rintro (hx | rfl | hx)
          · exact Or.inl hx
          · exact Or.inl (List.mem_toFinset.mp hin)
          · exact Or.inr hx
      · rw [if_neg hmem]
        ext x
        simp only [Finset.mem_union, List.mem_toFinset, List.map_cons, List.mem_cons,
          List.mem_append, List.mem_singleton]
        tauto

theorem hasKey_of_get_some {r : Obj} {k : String} {j : Json} (h : Obj.get r k = some j) :
    Obj.hasKey r k = true := by
  unfold Obj.get at h
  unfold Obj.hasKey
  cases hf : r.find? (fun p => p.1 = k) with
  | none => rw [hf] at h; simp at h
  | some p =>
      have hm := List.mem_of_find?_eq_some hf
      have hp := List.find?_some hf
      exact List.any_eq_true.mpr ⟨p, hm, hp⟩

theorem keyOf_of_get_some {r : Obj} {j : Json} (h : Obj.get r "doi" = some j) :
    keyOf r = j := by
  unfold keyOf Obj.getD
  rw [h]
  rfl

theorem json_str_injective : Function.Injective Json.str := by
  intro a b h
  injection h

theorem toFinset_map_str (l : List String) :
    (l.map Json.str).toFinset = l.toFinset.image Json.str := by
  induction l with
  | nil => simp
  | cons a t ih => simp [ih]

/-! ### C2 -/

/-- C2 (amended): when every outcome's record carries a `doi` field equal to
the identifier it was fetched for, the results mapping has exactly one key
per distinct input identifier. -/
theorem claim_C2_distinct_keys (dois : List String) (u : Upstream)
    (hkeys : ∀ d ∈ dois, Obj.get (fetchObj d u) "doi" = some (Json.str d)) :
    ((process_dois dois u).results.map Prod.fst).length = dois.dedup.length := by
  rw [process_dois_results]
  have hnodup : (((keyedOutcomes dois u).foldl insStep []).map Prod.fst).Nodup :=
    keys_foldl_nodup _ [] (by simp)
  have hfin := keys_foldl_toFinset (keyedOutcomes dois u) []
  have hfilter : (outcomesOf dois u).filter (fun r => r.hasKey "doi") = outcomesOf dois u := by
    apply List.filter_eq_self.mpr
    intro r hr
    obtain ⟨d, hd, rfl⟩ := List.mem_map.mp hr
    simpa using hasKey_of_get_some (hkeys d hd)
  have hkeyed : (keyedOutcomes dois u).map Prod.fst = dois.map Json.str := by
    rw [keyedOutcomes, hfilter, List.map_map, outcomesOf, List.map_map]
    refine List.map_congr_left ?_
    intro d hd
    simpa using keyOf_of_get_some (hkeys d hd)
  rw [← List.toFinset_card_of_nodup hnodup, hfin, hkeyed]
  simp only [List.map_nil, List.toFinset_nil, Finset.empty_union, toFinset_map_str]
  rw [Finset.card_image_of_injective _ json_str_injective, List.card_toFinset]

/-- Witness for C2 (amended) at a batch with a duplicate identifier. -/
theorem claim_C2_distinct_keys_witness :
    ((process_dois ["10.1/a", "10.1/b", "10.1/a"] uEcho).results.map Prod.fst).length =
      (["10.1/a", "10.1/b", "10.1/a"] : List String).dedup.length :=
  claim_C2_distinct_keys ["10.1/a", "10.1/b", "10.1/a"] uEcho (by decide)

/-- Counterexample to C2 as stated: a successful record without a `doi` key
is dropped, so the results mapping has fewer keys than the input has
distinct identifiers. -/
theorem claim_C2_counterexample :
    ((process_dois ["10.1/x"] uNoDoi).results.map Prod.fst).length = 0 ∧
      (["10.1/x"] : List String).dedup.length = 1 := by
  constructor
  · decide
  · decide

/-! ### C7 -/

/-- C7: when an identifier occurs more than once in the input, every
occurrence produces the identical outcome dict (hence the same key slot),
and the results mapping holds, for each key, the value of the last entry in
processing order — later writes overwrite earlier ones. -/
theorem claim_C7_duplicate_overwrite (dois : List String) (u : Upstream) (d : String)
    (hdup : 2 ≤ dois.count d) :
    2 ≤ (outcomesOf dois u).countP (fun r => r = fetchObj d u) ∧
      ∀ k : Json, dictLookup (process_dois dois u).results k =
        match ((keyedOutcomes dois u).filter (fun p => p.1 = k)).getLast? with
        | some p => some p.2
        | none => none := by
  constructor
  · have h1 : dois.countP (fun x => x == d) ≤
        dois.countP (fun x => decide (fetchObj x u = fetchObj d u)) := by
      apply List.countP_mono_left
      intro x _ hxd
      simp only [beq_iff_eq] at hxd
      simp [hxd]
    calc 2 ≤ dois.count d := hdup
      _ = dois.countP (fun x => x == d) := List.count_eq_countP d dois
      _ ≤ dois.countP (fun x => decide (fetchObj x u = fetchObj d u)) := h1
      _ = (outcomesOf dois u).countP (fun r => r = fetchObj d u) := by
          rw [outcomesOf, List.countP_map]
          rfl
  · intro k
    rw [process_dois_results, dictLookup_foldl]
    cases ((keyedOutcomes dois u).filter (fun p => p.1 = k)).getLast? <;> rfl

/-- Witness for C7 at a duplicated identifier. -/
theorem claim_C7_duplicate_overwrite_witness :
    2 ≤ (outcomesOf ["10.1/a", "10.1/a"] uEcho).countP
        (fun r => r = fetchObj "10.1/a" uEcho) ∧
      dictLookup (process_dois ["10.1/a", "10.1/a"] uEcho).results (Json.str "10.1/a") =
        some [("doi", Json.str "10.1/a"), ("x", Json.num 1)] :=
  ⟨(claim_C7_duplicate_overwrite ["10.1/a", "10.1/a"] uEcho "10.1/a" (by decide)).1,
   ((claim_C7_duplicate_overwrite ["10.1/a", "10.1/a"] uEcho "10.1/a" (by decide)).2
       (Json.str "10.1/a")).trans (by decide)⟩

/-! ### C3 -/

/-- The spec's reading of the derived cell (refinement reference, following
the spec's words): true iff the best-location sub-object has a `url_for_pdf`
field that is a non-empty string. -/
def specBestOaUrlIsPdf (data : Obj) : Bool :=
  match Obj.get data "best_oa_location" with
  | some (Json.obj fields) =>
      match Obj.get fields "url_for_pdf" with
      | some (Json.str s) => s ≠ ""
      | _ => false
  | _ => false

/-- A realistic upstream record: a best location whose `url_for_pdf` is
JSON `null` (the upstream API returns `url_for_pdf: null` when the best
location has no PDF link). -/
def pdfNullRecord : Obj :=
  [("doi", Json.str "10.1/x"),
   ("best_oa_location", Json.obj [("url_for_pdf", Json.null)])]

/-- C3 (code bug): on a record whose best location carries `url_for_pdf:
null` — not a non-empty string — the code computes `best_oa_url_is_pdf =
true`, because Python `None != ""` is `True`; the spec's non-empty-string
reading yields `false`. -/
theorem claim_C3_is_pdf_bug :
    csv_dict_from_response_dict pdfNullRecord = some (csvRowOf pdfNullRecord) ∧
      Obj.get (csvRowOf pdfNullRecord) "best_oa_url_is_pdf" = some (Json.bool true) ∧
      specBestOaUrlIsPdf pdfNullRecord = false := by
  refine ⟨rfl, by decide, by decide⟩

/-! ### C6 -/

/-- C6 (amended): the table output has one data row per successful outcome
that carries a `doi` field, with the fixed 20-column order; the header (and
the table itself) is emitted exactly when at least one such row exists; and
a record without `best_oa_location` projects to `best_oa_url = ""` and
`best_oa_url_is_pdf = false`. -/
theorem claim_C6_table (dois : List String) (u : Upstream) :
    ((process_dois dois u).csv =
        if (succWithDoi dois u).isEmpty then ""
        else renderCsv csvFieldnames ((succWithDoi dois u).map csvRowOf)) ∧
      ((succWithDoi dois u).map csvRowOf).length = (succWithDoi dois u).length ∧
      (∀ r ∈ succWithDoi dois u, (csvRowOf r).map Prod.fst = csvFieldnames) ∧
      (∀ r : Obj, Obj.get r "best_oa_location" = none →
        Obj.get (csvRowOf r) "best_oa_url" = some (Json.str "") ∧
          Obj.get (csvRowOf r) "best_oa_url_is_pdf" = some (Json.bool false)) := by
  refine ⟨process_dois_csv dois u, List.length_map _ _, fun r _ => csvRowOf_keys r, ?_⟩
  intro r hr
  have hbl : Obj.getD r "best_oa_location" Json.null = Json.null := by
    rw [Obj.getD, hr]
    rfl
  simp only [csvRowOf]
  rw [hbl]
  constructor <;> · simp [Json.isFalsy, Obj.get, Obj.getD, List.find?]

/-- Witness for C6 at a concrete one-success batch and a concrete record
missing `best_oa_location`. -/
theorem claim_C6_table_witness :
    (process_dois ["10.1/a"] uEcho).csv =
        renderCsv csvFieldnames ((succWithDoi ["10.1/a"] uEcho).map csvRowOf) ∧
      Obj.get (csvRowOf [("doi", Json.str "10.1/x")]) "best_oa_url" = some (Json.str "") ∧
      Obj.get (csvRowOf [("doi", Json.str "10.1/x")]) "best_oa_url_is_pdf" =
        some (Json.bool false) :=
  ⟨((claim_C6_table ["10.1/a"] uEcho).1).trans (by decide),
   ((claim_C6_table ["10.1/a"] uEcho).2.2.2 [("doi", Json.str "10.1/x")] (by decide)).1,
   ((claim_C6_table ["10.1/a"] uEcho).2.2.2 [("doi", Json.str "10.1/x")] (by decide)).2⟩

/-- Counterexample to C6 as stated: a successful outcome without a `doi`
key produces no table row (and no header), so row count 0 differs from
success count 1. -/
theorem claim_C6_counterexample :
    (process_dois ["10.1/x"] uNoDoi).success = 1 ∧
      (process_dois ["10.1/x"] uNoDoi).csv = "" := by
  exact ⟨by decide, by decide⟩

/-! ### C8 -/

/-- C8: the per-identifier fetch is total — it returns the upstream record
on a 2xx and otherwise exactly one of the four classified error outcomes
(InvalidFormat, HttpStatus, Transport, Unexpected), never an exception —
and a well-formed batch whose every outcome is an error still yields the
full payload, with `success = 0` and `errors = total`. -/
theorem claim_C8_fetch_total :
    (∀ (doi : String) (u : Upstream),
        (pyStartsWith doi "10." = false ∧ fetch_doi_data doi u = (invalidObj doi, 0)) ∨
        (∃ body, u doi = .ok body ∧ fetch_doi_data doi u = (body, 1)) ∨
        (∃ code msg, u doi = .httpStatus code msg ∧
            fetch_doi_data doi u = (httpErrObj doi code msg, 1)) ∨
        (∃ msg, u doi = .transport msg ∧ fetch_doi_data doi u = (transportErrObj doi msg, 1)) ∨
        (∃ msg, u doi = .unexpected msg ∧
            fetch_doi_data doi u = (unexpectedErrObj doi msg, 1))) ∧
      (∀ (dois : List String) (u : Upstream),
        (∀ d ∈ dois, Obj.hasKey (fetchObj d u) "error" = true) →
          (process_dois dois u).success = 0 ∧
            (process_dois dois u).errors = (process_dois dois u).total) := by
  constructor
  · intro doi u
    by_cases hv : pyStartsWith doi "10."
    · cases hu : u doi with
      | ok body =>
          refine Or.inr (Or.inl ⟨body, rfl, ?_⟩)
          simp [fetch_doi_data, hv, hu]
      | httpStatus code msg =>
          refine Or.inr (Or.inr (Or.inl ⟨code, msg, rfl, ?_⟩))
          simp [fetch_doi_data, hv, hu]
      | transport msg =>
          refine Or.inr (Or.inr (Or.inr (Or.inl ⟨msg, rfl, ?_⟩)))
          simp [fetch_doi_data, hv, hu]
      | unexpected msg =>
          refine Or.inr (Or.inr (Or.inr (Or.inr ⟨msg, rfl, ?_⟩)))
          simp [fetch_doi_data, hv, hu]
    · have hv' : pyStartsWith doi "10." = false := by
        cases hb : pyStartsWith doi "10."
        · rfl
        · exact absurd hb hv
      exact Or.inl ⟨hv', by simp [fetch_doi_data, hv']⟩
  · intro dois u hall
    have hsucc : (outcomesOf dois u).filter (fun r => !r.hasKey "error") = [] := by
      apply List.filter_eq_nil_iff.mpr
      intro r hr
      obtain ⟨d, hd, rfl⟩ := List.mem_map.mp hr
      simp [hall d hd]
    have herr : (outcomesOf dois u).filter (fun r => r.hasKey "error") = outcomesOf dois u := by
      apply List.filter_eq_self.mpr
      intro r hr
      obtain ⟨d, hd, rfl⟩ := List.mem_map.mp hr
      simpa using hall d hd
    constructor
    · rw [process_dois_success, hsucc]
      rfl
    · rw [process_dois_errors, herr, process_dois_total, outcomesOf, List.length_map]

/-- Witness for C8: a batch in which both identifiers fail (one 404, one
invalid format) still produces the payload, with zero successes. -/
theorem claim_C8_fetch_total_witness :
    (process_dois ["10.1/a", "nope"] u404).success = 0 ∧
      (process_dois ["10.1/a", "nope"] u404).errors =
        (process_dois ["10.1/a", "nope"] u404).total :=
  claim_C8_fetch_total.2 ["10.1/a", "nope"] u404 (by decide)

/-! ### C10 -/

/-- C10: the four collections keep only outcomes that carry a `doi` key —
a successful record without one is omitted from `results`, `errors_dict`,
the jsonl text and the csv text — while `total` and `success` count every
outcome; successful outcomes are keyed by the record's own `doi` field
(`keyOf`), not by the input identifier. -/
theorem claim_C10_doiless_dropped (dois : List String) (u : Upstream) :
    (process_dois dois u).results = (keyedOutcomes dois u).foldl insStep [] ∧
      (process_dois dois u).errors_dict = (errKeyedOutcomes dois u).foldl insStep [] ∧
      (process_dois dois u).jsonl =
        String.join ((succWithDoi dois u).map (fun r => Json.dumps (Json.obj r) ++ "\n")) ∧
      ((process_dois dois u).csv =
        if (succWithDoi dois u).isEmpty then ""
        else renderCsv csvFieldnames ((succWithDoi dois u).map csvRowOf)) ∧
      (process_dois dois u).total = dois.length ∧
      (process_dois dois u).success =
        ((outcomesOf dois u).filter (fun r => !r.hasKey "error")).length :=
  ⟨process_dois_results dois u, process_dois_errors_dict dois u, process_dois_jsonl dois u,
   process_dois_csv dois u, process_dois_total dois u, process_dois_success dois u⟩

/-! ### A JSON reader, to state the jsonl round-trip of C5 -/

def hexVal (c : Char) : Option Nat :=
  if '0' ≤ c ∧ c ≤ '9' then some (c.toNat - 48)
  else if 'a' ≤ c ∧ c ≤ 'f' then some (c.toNat - 87)
  else if 'A' ≤ c ∧ c ≤ 'F' then some (c.toNat - 55)
  else none

/-- Read the body of a JSON string after the opening quote; returns the
decoded characters and the input after the closing quote. -/
def parseStringBody : List Char → Option (List Char × List Char)
  | [] => none
  | c :: rest =>
    if c = '"' then some ([], rest)
    else if c = '\\' then
      match rest with
      | [] => none
      | e :: r2 =>
        if e = '"' then (fun p => ('"' :: p.1, p.2)) <$> parseStringBody r2
        else if e = '\\' then (fun p => ('\\' :: p.1, p.2)) <$> parseStringBody r2
        else if e = '/' then (fun p => ('/' :: p.1, p.2)) <$> parseStringBody r2
        else if e = 'b' then (fun p => ('\x08' :: p.1, p.2)) <$> parseStringBody r2
        else if e = 'f' then (fun p => ('\x0c' :: p.1, p.2)) <$> parseStringBody r2
        else if e = 'n' then (fun p => ('\n' :: p.1, p.2)) <$> parseStringBody r2
        else if e = 'r' then (fun p => ('\r' :: p.1, p.2)) <$> parseStringBody r2
        else if e = 't' then (fun p => ('\t' :: p.1, p.2)) <$> parseStringBody r2
        else if e = 'u' then
          match r2 with
          | h1 :: h2 :: h3 :: h4 :: r3 =>
            match hexVal h1, hexVal h2, hexVal h3, hexVal h4 with
            | some a, some b, some c2, some d =>
                (fun p => (Char.ofNat (((a * 16 + b) * 16 + c2) * 16 + d) :: p.1, p.2)) <$>
                  parseStringBody r3
            | _, _, _, _ => none
          | _ => none
        else none
    else (fun p => (c :: p.1, p.2)) <$> parseStringBody rest

def readDigits (acc : Nat) : List Char → Nat × List Char
  | [] => (acc, [])
  | c :: cs => if c.isDigit then readDigits (10 * acc + (c.toNat - 48)) cs else (acc, c :: cs)

def skipSpace : List Char → List Char
  | [] => []
  | c :: cs => if c = ' ' then skipSpace cs else c :: cs

def parseMemberWith (pv : List Char → Option (Json × List Char)) :
    List Char → Option ((String × Json) × List Char)
  | [] => none
  | c :: cs =>
    if c = '"' then
      match parseStringBody cs with
      | some (k, r) =>
          match r with
          | ':' :: r2 =>
              match pv (skipSpace r2) with
              | some (v, r3) => some ((k.asString, v), r3)
              | none => none
          | _ => none
      | none => none
    else none

def parseElemsWith (pv : List Char → Option (Json × List Char)) :
    Nat → List Char → Option (List Json × List Char)
  | 0, _ => none
  | _ + 1, [] => none
  | fuel + 1, c :: cs =>
    if c = ']' then some ([], cs)
    else if c = ',' then
      match pv (skipSpace cs) with
      | some (v, r) => (fun p => (v :: p.1, p.2)) <$> parseElemsWith pv fuel r
      | none => none
    else none

def parseMembersWith (pm : List Char → Option ((String × Json) × List Char)) :
    Nat → List Char → Option (List (String × Json) × List Char)
  | 0, _ => none
  | _ + 1, [] => none
  | fuel + 1, c :: cs =>
    if c = '\x7d' then some ([], cs)
    else if c = ',' then
      match pm (skipSpace cs) with
      | some (kv, r) => (fun p => (kv :: p.1, p.2)) <$> parseMembersWith pm fuel r
      | none => none
    else none

def parseVal : Nat → List Char → Option (Json × List Char)
  | 0, _ => none
  | _ + 1, [] => none
  | fuel + 1, c :: cs =>
    if c = 'n' then
      match cs with
      | 'u' :: 'l' :: 'l' :: r => some (.null, r)
      | _ => none
    else if c = 't' then
      match cs with
      | 'r' :: 'u' :: 'e' :: r => some (.bool true, r)
      | _ => none
    else if c = 'f' then
      match cs with
      | 'a' :: 'l' :: 's' :: 'e' :: r => some (.bool false, r)
      | _ => none
    else if c = '"' then
      (fun p => (Json.str p.1.asString, p.2)) <$> parseStringBody cs
    else if c = '-' then
      match cs with
      | d :: ds =>
          if d.isDigit then
            let p := readDigits (d.toNat - 48) ds
            some (.num (-(p.1 : Int)), p.2)
          else none
      | [] => none
    else if c.isDigit then
      let p := readDigits (c.toNat - 48) cs
      some (.num (p.1 : Int), p.2)
    else if c = '[' then
      if cs.head? = some ']' then some (.arr [], cs.tail)
      else
        match parseVal fuel cs with
        | some (v, r) =>
            (fun p => (Json.arr (v :: p.1), p.2)) <$>
              parseElemsWith (fun l => parseVal fuel l) fuel r
        | none => none
    else if c = '\x7b' then
      if cs.head? = some '\x7d' then some (.obj [], cs.tail)
      else
        match parseMemberWith (fun l => parseVal fuel l) cs with
        | some (kv, r) =>
            (fun p => (Json.obj (kv :: p.1), p.2)) <$>
              parseMembersWith (parseMemberWith (fun l => parseVal fuel l)) fuel r
        | none => none
    else none

/-- Parse a complete JSON text (as printed by `Json.dumps`). -/
def parseJsonText (s : String) : Option Json :=
  match parseVal (s.data.length + 1) s.data with
  | some (j, []) => some j
  | _ => none

/-! ### Digit lemmas for the number round-trip -/

def headNotDigit : List Char → Bool
  | [] => true
  | c :: _ => !c.isDigit

theorem digitChar_isDigit {d : Nat} (h : d < 10) : (digitChar d).isDigit = true := by
  interval_cases d <;> decide

theorem digitChar_toNat {d : Nat} (h : d < 10) : (digitChar d).toNat = 48 + d := by
  interval_cases d <;> decide

theorem natToCharsCore_eq_append (n : Nat) :
    ∀ (fuel : Nat) (tail : List Char), n < fuel →
      natToCharsCore fuel n tail = natToChars n ++ tail := by
  induction n using Nat.strong_induction_on with
  | _ n ih =>
      intro fuel tail hfuel
      match fuel, hfuel with
      | f + 1, hfuel =>
        by_cases h10 : n < 10
        · simp [natToCharsCore, natToChars, h10]
        · have hdiv : n / 10 < n := Nat.div_lt_self (by omega) (by omega)
          have h1 : natToCharsCore (f + 1) n tail =
              natToCharsCore f (n / 10) (digitChar (n % 10) :: tail) := by
            simp [natToCharsCore, h10]
          have h2 : natToChars n = natToChars (n / 10) ++ [digitChar (n % 10)] := by
            have h3 : natToChars n = natToCharsCore n (n / 10) [digitChar (n % 10)] := by
              simp [natToChars, natToCharsCore, h10]
            rw [h3]
            exact ih (n / 10) hdiv n [digitChar (n % 10)] hdiv
          rw [h1, ih (n / 10) hdiv f (digitChar (n % 10) :: tail) (by omega), h2,
            List.append_assoc]
          rfl

theorem natToChars_head (n : Nat) :
    ∃ d ds, natToChars n = d :: ds ∧ d.isDigit = true := by
  induction n using Nat.strong_induction_on with
  | _ n ih =>
      by_cases h10 : n < 10
      · exact ⟨digitChar n, [], by simp [natToChars, natToCharsCore, h10],
          digitChar_isDigit h10⟩
      · have hdiv : n / 10 < n := Nat.div_lt_self (by omega) (by omega)
        obtain ⟨d, ds, hds, hdig⟩ := ih (n / 10) hdiv
        have h2 : natToChars n = natToChars (n / 10) ++ [digitChar (n % 10)] := by
          have h3 : natToChars n = natToCharsCore n (n / 10) [digitChar (n % 10)] := by
            simp [natToChars, natToCharsCore, h10]
          rw [h3]
          exact natToCharsCore_eq_append (n / 10) n [digitChar (n % 10)] hdiv
        exact ⟨d, ds ++ [digitChar (n % 10)], by rw [h2, hds]; rfl, hdig⟩

theorem readDigits_natToChars (n : Nat) :
    ∀ (a : Nat) (tail : List Char),
      readDigits a (natToChars n ++ tail) =
        readDigits (a * 10 ^ (natToChars n).length + n) tail := by
  induction n using Nat.strong_induction_on with
  | _ n ih =>
      intro a tail
      by_cases h10 : n < 10
      · have h1 : natToChars n = [digitChar n] := by simp [natToChars, natToCharsCore, h10]
        rw [h1]
        simp only [List.singleton_append, readDigits, digitChar_isDigit h10, if_true,
          digitChar_toNat h10, List.length_cons, List.length_nil]
        congr 1
        have : 10 ^ (0 + 1) = 10 := by norm_num
        omega
      · have hdiv : n / 10 < n := Nat.div_lt_self (by omega) (by omega)
        have h2 : natToChars n = natToChars (n / 10) ++ [digitChar (n % 10)] := by
          have h3 : natToChars n = natToCharsCore n (n / 10) [digitChar (n % 10)] := by
            simp [natToChars, natToCharsCore, h10]
          rw [h3]
          exact natToCharsCore_eq_append (n / 10) n [digitChar (n % 10)] hdiv
        rw [h2, List.append_assoc]
        simp only [List.singleton_append]
        rw [ih (n / 10) hdiv a (digitChar (n % 10) :: tail)]
        have hm : n % 10 < 10 := Nat.mod_lt _ (by omega)
        simp only [readDigits, digitChar_isDigit hm, if_true, digitChar_toNat hm,
          List.length_append, List.length_cons, List.length_nil]
        congr 1
        have h48 : 48 + n % 10 - 48 = n % 10 := by omega
        rw [h48]
        simp only [Nat.zero_add]
        rw [Nat.pow_succ, ← Nat.mul_assoc]
        have hmod := Nat.div_add_mod n 10
        omega

theorem readDigits_stop (a : Nat) (tail : List Char) (h : headNotDigit tail = true) :
    readDigits a tail = (a, tail) := by
  cases tail with
  | nil => rfl
  | cons c cs =>
      have hc : c.isDigit = false := by simpa [headNotDigit] using h
      simp [readDigits, hc]

/-! ### String-escape round-trip -/

theorem hexVal_hexDigitChar {d : Nat} (h : d < 16) : hexVal (hexDigitChar d) = some d := by
  interval_cases d <;> decide

theorem data_asString (s : String) : s.data.asString = s := rfl

theorem parseStringBody_escape (cs : List Char) (rest : List Char) :
    parseStringBody (escapeList cs ++ '"' :: rest) = some (cs, rest) := by
  induction cs with
  | nil =>
      rw [escapeList, List.flatMap_nil, List.nil_append, parseStringBody.eq_def]
      simp
  | cons c cs ih =>
      have hesc : escapeList (c :: cs) ++ '"' :: rest =
          escapeChar c ++ (escapeList cs ++ '"' :: rest) := by
        simp [escapeList, List.append_assoc]
      rw [hesc]
      by_cases h1 : c = '"'
      · subst h1
        rw [show escapeChar '"' = ['\\', '"'] from rfl, List.cons_append, List.cons_append,
          List.nil_append, parseStringBody.eq_def]
        simp [ih]
      · by_cases h2 : c = '\\'
        · subst h2
          rw [show escapeChar '\\' = ['\\', '\\'] from rfl, List.cons_append, List.cons_append,
            List.nil_append, parseStringBody.eq_def]
          simp [ih]
        · by_cases h3 : c = '\x08'
          · subst h3
            rw [show escapeChar '\x08' = ['\\', 'b'] from rfl, List.cons_append, List.cons_append,
              List.nil_append, parseStringBody.eq_def]
            simp [ih]
          · by_cases h4 : c = '\x0c'
            · subst h4
              rw [show escapeChar '\x0c' = ['\\', 'f'] from rfl, List.cons_append,
                List.cons_append, List.nil_append, parseStringBody.eq_def]
              simp [ih]
            · by_cases h5 : c = '\n'
              · subst h5
                rw [show escapeChar '\n' = ['\\', 'n'] from rfl, List.cons_append,
                  List.cons_append, List.nil_append, parseStringBody.eq_def]
                simp [ih]
              · by_cases h6 : c = '\r'
                · subst h6
                  rw [show escapeChar '\r' = ['\\', 'r'] from rfl, List.cons_append,
                    List.cons_append, List.nil_append, parseStringBody.eq_def]
                  simp [ih]
                · by_cases h7 : c = '\t'
                  · subst h7
                    rw [show escapeChar '\t' = ['\\', 't'] from rfl, List.cons_append,
                      List.cons_append, List.nil_append, parseStringBody.eq_def]
                    simp [ih]
                  · by_cases h8 : c.toNat < 32
                    · have hd : c.toNat / 16 < 16 := by omega
                      have hm : c.toNat % 16 < 16 := Nat.mod_lt _ (by omega)
                      have hcode :
                          ((0 * 16 + 0) * 16 + c.toNat / 16) * 16 + c.toNat % 16 = c.toNat := by
                        have := Nat.div_add_mod c.toNat 16
                        omega
                      have hesc2 : escapeChar c =
                          ['\\', 'u', '0', '0', hexDigitChar (c.toNat / 16),
                            hexDigitChar (c.toNat % 16)] := by
                        rw [escapeChar, if_neg h1, if_neg h2, if_neg h3, if_neg h4, if_neg h5,
                          if_neg h6, if_neg h7, if_pos h8]
                      rw [hesc2]
                      simp only [List.cons_append, List.nil_append]
                      rw [parseStringBody.eq_def]
                      simp [show hexVal '0' = some 0 from by decide,
                        hexVal_hexDigitChar hd, hexVal_hexDigitChar hm, hcode,
                        Char.ofNat_toNat, ih]
                      have hc2 : c.toNat / 16 * 16 + c.toNat % 16 = c.toNat := by omega
                      rw [hc2, Char.ofNat_toNat]
                    · have hesc2 : escapeChar c = [c] := by
                        rw [escapeChar, if_neg h1, if_neg h2, if_neg h3, if_neg h4, if_neg h5,
                          if_neg h6, if_neg h7, if_neg h8]
                      rw [hesc2, List.cons_append, List.nil_append, parseStringBody.eq_def]
                      simp [h1, h2, ih]

/-! ### Shape lemmas for the printed text -/

theorem asString_data_eq (l : List Char) : (List.asString l).data = l := rfl

theorem dumps_num_ofNat_data (m : Nat) :
    (Json.dumps (Json.num (Int.ofNat m))).data = natToChars m := rfl

theorem dumps_num_negSucc_data (m : Nat) :
    (Json.dumps (Json.num (Int.negSucc m))).data = '-' :: natToChars (m + 1) := rfl

theorem dumps_str_data (s : String) :
    (Json.dumps (Json.str s)).data = '"' :: (escapeList s.data ++ ['"']) := by
  simp [Json.dumps, dumpStr, String.data_append, asString_data_eq]

theorem dumps_arr_cons_data (x : Json) (xs : List Json) :
    (Json.dumps (Json.arr (x :: xs))).data =
      '[' :: ((Json.dumps x).data ++ (dumpsTailElems xs).data) := by
  simp [Json.dumps, String.data_append]

theorem dumps_obj_cons_data (kv : String × Json) (fs : List (String × Json)) :
    (Json.dumps (Json.obj (kv :: fs))).data =
      '\x7b' :: ((dumpStr kv.1 ++ ": " ++ Json.dumps kv.2).data ++ (dumpsTailFields fs).data) := by
  simp [Json.dumps, String.data_append, List.append_assoc]

theorem tailElems_cons_data (x : Json) (xs : List Json) :
    (dumpsTailElems (x :: xs)).data =
      ',' :: ' ' :: ((Json.dumps x).data ++ (dumpsTailElems xs).data) := by
  simp [dumpsTailElems, String.data_append]

theorem tailFields_cons_data (kv : String × Json) (fs : List (String × Json)) :
    (dumpsTailFields (kv :: fs)).data =
      ',' :: ' ' :: ((dumpStr kv.1 ++ ": " ++ Json.dumps kv.2).data ++ (dumpsTailFields fs).data) := by
  simp [dumpsTailFields, String.data_append, List.append_assoc]

theorem memberChunk_data (k : String) (v : Json) :
    (dumpStr k ++ ": " ++ Json.dumps v).data =
      '"' :: (escapeList k.data ++ ('"' :: ':' :: ' ' :: (Json.dumps v).data)) := by
  simp [dumpStr, String.data_append, asString_data_eq, List.append_assoc]

theorem dumps_head (j : Json) :
    ∃ c cs, (Json.dumps j).data = c :: cs ∧
      (c = 'n' ∨ c = 't' ∨ c = 'f' ∨ c = '"' ∨ c = '-' ∨ c.isDigit = true ∨
        c = '[' ∨ c = '\x7b') := by
  cases j with
  | null => exact ⟨'n', ['u', 'l', 'l'], rfl, Or.inl rfl⟩
  | bool b =>
      cases b with
      | false => exact ⟨'f', ['a', 'l', 's', 'e'], rfl, by simp⟩
      | true => exact ⟨'t', ['r', 'u', 'e'], rfl, by simp⟩
  | num n =>
      cases n with
      | ofNat m =>
          obtain ⟨d, ds, hds, hdig⟩ := natToChars_head m
          exact ⟨d, ds, by rw [dumps_num_ofNat_data, hds], by simp [hdig]⟩
      | negSucc m => exact ⟨'-', natToChars (m + 1), dumps_num_negSucc_data m, by simp⟩
  | str s => exact ⟨'"', escapeList s.data ++ ['"'], dumps_str_data s, by simp⟩
  | arr l =>
      cases l with
      | nil => exact ⟨'[', [']'], rfl, by simp⟩
      | cons x xs =>
          exact ⟨'[', (Json.dumps x).data ++ (dumpsTailElems xs).data,
            dumps_arr_cons_data x xs, by simp⟩
  | obj l =>
      cases l with
      | nil => exact ⟨'\x7b', ['\x7d'], rfl, by simp⟩
      | cons kv fs =>
          exact ⟨'\x7b', (dumpStr kv.1 ++ ": " ++ Json.dumps kv.2).data ++
            (dumpsTailFields fs).data, dumps_obj_cons_data kv fs, by simp⟩

theorem good_head_ne {c : Char}
    (h : c = 'n' ∨ c = 't' ∨ c = 'f' ∨ c = '"' ∨ c = '-' ∨ c.isDigit = true ∨
      c = '[' ∨ c = '\x7b') :
    c ≠ ' ' ∧ c ≠ ']' ∧ c ≠ '\x7d' := by
  rcases h with rfl | rfl | rfl | rfl | rfl | hdig | rfl | rfl
  all_goals first
    | exact ⟨by decide, by decide, by decide⟩
    | refine ⟨?_, ?_, ?_⟩ <;> (intro hc; rw [hc] at hdig; exact absurd hdig (by decide))

theorem skipSpace_cons_of_ne {c : Char} (hc : c ≠ ' ') (l : List Char) :
    skipSpace (' ' :: c :: l) = c :: l := by
  simp [skipSpace, hc]

theorem skipSpace_space_dumps (j : Json) (rest : List Char) :
    skipSpace (' ' :: ((Json.dumps j).data ++ rest)) = (Json.dumps j).data ++ rest := by
  obtain ⟨c, cs, hdata, hc⟩ := dumps_head j
  rw [hdata, List.cons_append, skipSpace_cons_of_ne (good_head_ne hc).1]

theorem skipSpace_space_member (k : String) (v : Json) (rest : List Char) :
    skipSpace (' ' :: ((dumpStr k ++ ": " ++ Json.dumps v).data ++ rest)) =
      (dumpStr k ++ ": " ++ Json.dumps v).data ++ rest := by
  rw [memberChunk_data, List.cons_append, skipSpace_cons_of_ne (by decide)]

theorem headNotDigit_tailElems (xs : List Json) (rest : List Char) :
    headNotDigit ((dumpsTailElems xs).data ++ rest) = true := by
  cases xs with
  | nil => rfl
  | cons x t => rw [tailElems_cons_data]; rfl

theorem headNotDigit_tailFields (fs : List (String × Json)) (rest : List Char) :
    headNotDigit ((dumpsTailFields fs).data ++ rest) = true := by
  cases fs with
  | nil => rfl
  | cons kv t => rw [tailFields_cons_data]; rfl

/-! ### Fuel bounds for the reader -/

mutual
def fuelV : Json → Nat
  | .null => 1
  | .bool _ => 1
  | .num _ => 1
  | .str _ => 1
  | .arr [] => 1
  | .arr (x :: xs) => 1 + fuelV x + fuelE xs
  | .obj [] => 1
  | .obj (kv :: fs) => 1 + (1 + fuelV kv.2) + fuelF fs

def fuelE : List Json → Nat
  | [] => 1
  | x :: xs => 1 + fuelV x + fuelE xs

def fuelF : List (String × Json) → Nat
  | [] => 1
  | kv :: fs => 1 + (1 + fuelV kv.2) + fuelF fs
end

theorem fuelV_pos (j : Json) : 1 ≤ fuelV j := by
  cases j with
  | arr l => cases l <;> simp [fuelV] <;> omega
  | obj l => cases l <;> simp [fuelV] <;> omega
  | null => simp [fuelV]
  | bool b => simp [fuelV]
  | num n => simp [fuelV]
  | str s => simp [fuelV]

theorem fuelE_pos (xs : List Json) : 1 ≤ fuelE xs := by
  cases xs <;> simp [fuelE] <;> omega

theorem fuelF_pos (fs : List (String × Json)) : 1 ≤ fuelF fs := by
  cases fs <;> simp [fuelF] <;> omega


/-! ### One-step unfolding equations for the reader -/

theorem parseVal_succ_cons (g : Nat) (c : Char) (cs : List Char) :
    parseVal (g + 1) (c :: cs) =
      (if c = 'n' then
        match cs with
        | 'u' :: 'l' :: 'l' :: r => some (Json.null, r)
        | _ => none
      else if c = 't' then
        match cs with
        | 'r' :: 'u' :: 'e' :: r => some (Json.bool true, r)
        | _ => none
      else if c = 'f' then
        match cs with
        | 'a' :: 'l' :: 's' :: 'e' :: r => some (Json.bool false, r)
        | _ => none
      else if c = '"' then
        (fun p => (Json.str p.1.asString, p.2)) <$> parseStringBody cs
      else if c = '-' then
        match cs with
        | d :: ds =>
            if d.isDigit then
              let p := readDigits (d.toNat - 48) ds
              some (Json.num (-(p.1 : Int)), p.2)
            else none
        | [] => none
      else if c.isDigit then
        let p := readDigits (c.toNat - 48) cs
        some (Json.num (p.1 : Int), p.2)
      else if c = '[' then
        if cs.head? = some ']' then some (Json.arr [], cs.tail)
        else
          match parseVal g cs with
          | some (v, r) =>
              (fun p => (Json.arr (v :: p.1), p.2)) <$>
                parseElemsWith (fun l => parseVal g l) g r
          | none => none
      else if c = '\x7b' then
        if cs.head? = some '\x7d' then some (Json.obj [], cs.tail)
        else
          match parseMemberWith (fun l => parseVal g l) cs with
          | some (kv, r) =>
              (fun p => (Json.obj (kv :: p.1), p.2)) <$>
                parseMembersWith (parseMemberWith (fun l => parseVal g l)) g r
          | none => none
      else none) := rfl

theorem parseElemsWith_succ (pv : List Char → Option (Json × List Char)) (g : Nat)
    (c : Char) (cs : List Char) :
    parseElemsWith pv (g + 1) (c :: cs) =
      (if c = ']' then some ([], cs)
       else if c = ',' then
         match pv (skipSpace cs) with
         | some (v, r) => (fun p => (v :: p.1, p.2)) <$> parseElemsWith pv g r
         | none => none
       else none) := rfl

theorem parseMembersWith_succ (pm : List Char → Option ((String × Json) × List Char))
    (g : Nat) (c : Char) (cs : List Char) :
    parseMembersWith pm (g + 1) (c :: cs) =
      (if c = '\x7d' then some ([], cs)
       else if c = ',' then
         match pm (skipSpace cs) with
         | some (kv, r) => (fun p => (kv :: p.1, p.2)) <$> parseMembersWith pm g r
         | none => none
       else none) := rfl

theorem parseMemberWith_cons (pv : List Char → Option (Json × List Char)) (c : Char)
    (cs : List Char) :
    parseMemberWith pv (c :: cs) =
      (if c = '"' then
        match parseStringBody cs with
        | some (k, r) =>
            match r with
            | ':' :: r2 =>
                match pv (skipSpace r2) with
                | some (v, r3) => some ((k.asString, v), r3)
                | none => none
            | _ => none
        | none => none
      else none) := rfl

theorem parseVal_step_null (g : Nat) (rest : List Char) :
    parseVal (g + 1) ('n' :: 'u' :: 'l' :: 'l' :: rest) = some (Json.null, rest) := rfl

theorem parseVal_step_true (g : Nat) (rest : List Char) :
    parseVal (g + 1) ('t' :: 'r' :: 'u' :: 'e' :: rest) = some (Json.bool true, rest) := rfl

theorem parseVal_step_false (g : Nat) (rest : List Char) :
    parseVal (g + 1) ('f' :: 'a' :: 'l' :: 's' :: 'e' :: rest) =
      some (Json.bool false, rest) := rfl

theorem parseVal_step_arr_nil (g : Nat) (rest : List Char) :
    parseVal (g + 1) ('[' :: ']' :: rest) = some (Json.arr [], rest) := rfl

theorem parseVal_step_obj_nil (g : Nat) (rest : List Char) :
    parseVal (g + 1) ('\x7b' :: '\x7d' :: rest) = some (Json.obj [], rest) := rfl

theorem fuelE_ge_length (xs : List Json) : xs.length + 1 ≤ fuelE xs := by
  induction xs with
  | nil => simp [fuelE]
  | cons x t ih =>
      have := fuelV_pos x
      simp only [fuelE, List.length_cons]
      omega

theorem fuelF_ge_length (fs : List (String × Json)) : fs.length + 1 ≤ fuelF fs := by
  induction fs with
  | nil => simp [fuelF]
  | cons kv t ih =>
      have := fuelV_pos kv.2
      simp only [fuelF, List.length_cons]
      omega

theorem mem_fuelE {x : Json} {xs : List Json} (h : x ∈ xs) : fuelV x ≤ fuelE xs := by
  induction xs with
  | nil => simp at h
  | cons y t ih =>
      rcases List.mem_cons.mp h with rfl | hmem
      · simp only [fuelE]; omega
      · have := ih hmem
        have := fuelV_pos y
        simp only [fuelE]
        omega

theorem mem_fuelF {kv : String × Json} {fs : List (String × Json)} (h : kv ∈ fs) :
    1 + fuelV kv.2 ≤ fuelF fs := by
  induction fs with
  | nil => simp at h
  | cons p t ih =>
      rcases List.mem_cons.mp h with rfl | hmem
      · simp only [fuelF]; omega
      · have := ih hmem
        have := fuelV_pos p.2
        simp only [fuelF]
        omega

/-! ### The reader inverts the printer -/

theorem parseMemberWith_dumps (pv : List Char → Option (Json × List Char)) (k : String)
    (v : Json) (rest : List Char)
    (hpv : pv ((Json.dumps v).data ++ rest) = some (v, rest)) :
    parseMemberWith pv ((dumpStr k ++ ": " ++ Json.dumps v).data ++ rest) =
      some ((k, v), rest) := by
  rw [memberChunk_data, List.cons_append, parseMemberWith_cons, if_pos rfl]
  have harg : (escapeList k.data ++ ('"' :: ':' :: ' ' :: (Json.dumps v).data)) ++ rest =
      escapeList k.data ++ ('"' :: ':' :: ' ' :: ((Json.dumps v).data ++ rest)) := by
    simp [List.append_assoc]
  rw [harg, parseStringBody_escape k.data (':' :: ' ' :: ((Json.dumps v).data ++ rest))]
  show (match pv (skipSpace (' ' :: ((Json.dumps v).data ++ rest))) with
    | some (v, r3) => some ((k.data.asString, v), r3)
    | none => none) = some ((k, v), rest)
  rw [show skipSpace (' ' :: ((Json.dumps v).data ++ rest)) = (Json.dumps v).data ++ rest
    from skipSpace_space_dumps v rest]
  rw [hpv, data_asString]

theorem parseElemsWith_dumps (pv : List Char → Option (Json × List Char)) (xs : List Json) :
    ∀ (fuel : Nat) (rest : List Char), xs.length + 1 ≤ fuel →
      (∀ x ∈ xs, ∀ r : List Char, headNotDigit r = true →
        pv ((Json.dumps x).data ++ r) = some (x, r)) →
      parseElemsWith pv fuel ((dumpsTailElems xs).data ++ rest) = some (xs, rest) := by
  induction xs with
  | nil =>
      intro fuel rest hf _
      match fuel, hf with
      | g + 1, _ =>
        rw [show (dumpsTailElems []).data = [']'] from rfl, List.singleton_append,
          parseElemsWith_succ, if_pos rfl]
  | cons x t ih =>
      intro fuel rest hf hpv
      match fuel, hf with
      | g + 1, hf =>
        rw [tailElems_cons_data, List.cons_append, List.cons_append, List.append_assoc,
          parseElemsWith_succ, if_neg (by decide), if_pos rfl]
        rw [show skipSpace (' ' :: ((Json.dumps x).data ++ ((dumpsTailElems t).data ++ rest))) =
          (Json.dumps x).data ++ ((dumpsTailElems t).data ++ rest)
          from skipSpace_space_dumps x ((dumpsTailElems t).data ++ rest)]
        rw [hpv x (List.mem_cons_self x t) ((dumpsTailElems t).data ++ rest)
          (headNotDigit_tailElems t rest)]
        dsimp only
        rw [ih g rest (by simpa using Nat.le_of_succ_le_succ hf)
          (fun y hy r hr => hpv y (List.mem_cons_of_mem x hy) r hr)]
        rfl

theorem parseMembersWith_dumps (pm : List Char → Option ((String × Json) × List Char))
    (fs : List (String × Json)) :
    ∀ (fuel : Nat) (rest : List Char), fs.length + 1 ≤ fuel →
      (∀ kv ∈ fs, ∀ r : List Char, headNotDigit r = true →
        pm ((dumpStr kv.1 ++ ": " ++ Json.dumps kv.2).data ++ r) = some (kv, r)) →
      parseMembersWith pm fuel ((dumpsTailFields fs).data ++ rest) = some (fs, rest) := by
  induction fs with
  | nil =>
      intro fuel rest hf _
      match fuel, hf with
      | g + 1, _ =>
        rw [show (dumpsTailFields []).data = ['\x7d'] from rfl, List.singleton_append,
          parseMembersWith_succ, if_pos rfl]
  | cons kv t ih =>
      intro fuel rest hf hpm
      match fuel, hf with
      | g + 1, hf =>
        rw [tailFields_cons_data, List.cons_append, List.cons_append, List.append_assoc,
          parseMembersWith_succ, if_neg (by decide), if_pos rfl]
        rw [show skipSpace (' ' ::
            ((dumpStr kv.1 ++ ": " ++ Json.dumps kv.2).data ++
              ((dumpsTailFields t).data ++ rest))) =
          (dumpStr kv.1 ++ ": " ++ Json.dumps kv.2).data ++ ((dumpsTailFields t).data ++ rest)
          from skipSpace_space_member kv.1 kv.2 ((dumpsTailFields t).data ++ rest)]
        rw [hpm kv (List.mem_cons_self kv t) ((dumpsTailFields t).data ++ rest)
          (headNotDigit_tailFields t rest)]
        dsimp only
        rw [ih g rest (by simpa using Nat.le_of_succ_le_succ hf)
          (fun p hp r hr => hpm p (List.mem_cons_of_mem kv hp) r hr)]
        rfl

theorem parseVal_dumps (fuel : Nat) :
    ∀ (j : Json) (rest : List Char), fuelV j ≤ fuel → headNotDigit rest = true →
      parseVal fuel ((Json.dumps j).data ++ rest) = some (j, rest) := by
  induction fuel with
  | zero =>
      intro j rest hf _
      have := fuelV_pos j
      omega
  | succ g ih =>
      intro j rest hf hrest
      cases j with
      | null => exact parseVal_step_null g rest
      | bool b =>
          cases b with
          | true => exact parseVal_step_true g rest
          | false => exact parseVal_step_false g rest
      | num n =>
          cases n with
          | ofNat m =>
              obtain ⟨d, ds, hds, hdig⟩ := natToChars_head m
              have hn : ¬(d = 'n') := fun h => absurd (h ▸ hdig) (by decide)
              have ht : ¬(d = 't') := fun h => absurd (h ▸ hdig) (by decide)
              have hfa : ¬(d = 'f') := fun h => absurd (h ▸ hdig) (by decide)
              have hq : ¬(d = '"') := fun h => absurd (h ▸ hdig) (by decide)
              have hmi : ¬(d = '-') := fun h => absurd (h ▸ hdig) (by decide)
              have hread : readDigits (d.toNat - 48) (ds ++ rest) = (m, rest) := by
                have h0 : readDigits 0 (natToChars m ++ rest) = (m, rest) := by
                  rw [readDigits_natToChars m 0 rest]
                  simpa using readDigits_stop m rest hrest
                rw [hds, List.cons_append,
                  show readDigits 0 (d :: (ds ++ rest)) =
                    if d.isDigit then readDigits (10 * 0 + (d.toNat - 48)) (ds ++ rest)
                    else (0, d :: (ds ++ rest)) from rfl, if_pos hdig] at h0
                simpa using h0
              rw [dumps_num_ofNat_data, hds, List.cons_append, parseVal_succ_cons,
                if_neg hn, if_neg ht, if_neg hfa, if_neg hq, if_neg hmi, if_pos hdig, hread]
              rfl
          | negSucc m =>
              obtain ⟨d, ds, hds, hdig⟩ := natToChars_head (m + 1)
              have hread : readDigits (d.toNat - 48) (ds ++ rest) = (m + 1, rest) := by
                have h0 : readDigits 0 (natToChars (m + 1) ++ rest) = (m + 1, rest) := by
                  rw [readDigits_natToChars (m + 1) 0 rest]
                  simpa using readDigits_stop (m + 1) rest hrest
                rw [hds, List.cons_append,
                  show readDigits 0 (d :: (ds ++ rest)) =
                    if d.isDigit then readDigits (10 * 0 + (d.toNat - 48)) (ds ++ rest)
                    else (0, d :: (ds ++ rest)) from rfl, if_pos hdig] at h0
                simpa using h0
              rw [dumps_num_negSucc_data, List.cons_append, hds, List.cons_append,
                parseVal_succ_cons, if_neg (by decide), if_neg (by decide),
                if_neg (by decide), if_neg (by decide), if_pos rfl]
              show (if d.isDigit then
                  let p := readDigits (d.toNat - 48) (ds ++ rest)
                  some (Json.num (-(p.1 : Int)), p.2)
                else none) = some (Json.num (Int.negSucc m), rest)
              rw [if_pos hdig, hread]
              show some (Json.num (-((m + 1 : Nat) : Int)), rest) =
                some (Json.num (Int.negSucc m), rest)
              have hneg : -((m + 1 : Nat) : Int) = Int.negSucc m := by
                rw [Int.negSucc_eq]
                push_cast
                ring
              rw [hneg]
      | str s =>
          rw [dumps_str_data, List.cons_append, parseVal_succ_cons, if_neg (by decide),
            if_neg (by decide), if_neg (by decide), if_pos rfl]
          have harg : (escapeList s.data ++ ['"']) ++ rest =
              escapeList s.data ++ '"' :: rest := by
            simp
          rw [harg, parseStringBody_escape s.data rest]
          show some (Json.str (s.data.asString), rest) = some (Json.str s, rest)
          rw [data_asString]
      | arr l =>
          cases l with
          | nil => exact parseVal_step_arr_nil g rest
          | cons x xs =>
              have hfe : fuelV (Json.arr (x :: xs)) = 1 + fuelV x + fuelE xs := by
                simp [fuelV]
              have hfx : fuelV x ≤ g := by omega
              have hfxs : fuelE xs ≤ g := by omega
              obtain ⟨c0, cs0, hc0, hgood⟩ := dumps_head x
              have hne : ¬(c0 = ']') := (good_head_ne hgood).2.1
              have hhead :
                  ((Json.dumps x).data ++ ((dumpsTailElems xs).data ++ rest)).head? =
                    some c0 := by
                rw [hc0]
                rfl
              rw [dumps_arr_cons_data, List.cons_append, List.append_assoc,
                parseVal_succ_cons, if_neg (by decide), if_neg (by decide),
                if_neg (by decide), if_neg (by decide), if_neg (by decide),
                if_neg (by decide), if_pos rfl, hhead,
                if_neg (fun h => hne (Option.some.inj h))]
              rw [ih x ((dumpsTailElems xs).data ++ rest) hfx
                (headNotDigit_tailElems xs rest)]
              dsimp only
              rw [parseElemsWith_dumps (fun l => parseVal g l) xs g rest
                (le_trans (fuelE_ge_length xs) hfxs)
                (fun y hy r hr => ih y r (le_trans (mem_fuelE hy) hfxs) hr)]
              rfl
      | obj l =>
          cases l with
          | nil => exact parseVal_step_obj_nil g rest
          | cons kv fs =>
              have hfe : fuelV (Json.obj (kv :: fs)) = 1 + (1 + fuelV kv.2) + fuelF fs := by
                simp [fuelV]
              have hfv : fuelV kv.2 ≤ g := by
                have := fuelF_pos fs
                omega
              have hffs : fuelF fs ≤ g := by
                have := fuelV_pos kv.2
                omega
              have hhead :
                  ((dumpStr kv.1 ++ ": " ++ Json.dumps kv.2).data ++
                      ((dumpsTailFields fs).data ++ rest)).head? = some '"' := by
                rw [memberChunk_data]
                rfl
              rw [dumps_obj_cons_data, List.cons_append, List.append_assoc,
                parseVal_succ_cons, if_neg (by decide), if_neg (by decide),
                if_neg (by decide), if_neg (by decide), if_neg (by decide),
                if_neg (by decide), if_neg (by decide), if_pos rfl, hhead,
                if_neg (by decide)]
              rw [parseMemberWith_dumps (fun l => parseVal g l) kv.1 kv.2
                ((dumpsTailFields fs).data ++ rest)
                (ih kv.2 ((dumpsTailFields fs).data ++ rest) hfv
                  (headNotDigit_tailFields fs rest))]
              dsimp only
              rw [parseMembersWith_dumps (parseMemberWith (fun l => parseVal g l)) fs g rest
                (le_trans (fuelF_ge_length fs) hffs)
                (fun p hp r hr => parseMemberWith_dumps (fun l => parseVal g l) p.1 p.2 r
                  (ih p.2 r (by have := mem_fuelF hp; omega) hr))]
              rfl

/-! ### Fuel bound from the printed length -/

mutual
theorem fuelV_le_dumps_len : ∀ j : Json, fuelV j ≤ (Json.dumps j).data.length
  | .null => by decide
  | .bool b => by cases b <;> decide
  | .num n => by
      cases n with
      | ofNat m =>
          obtain ⟨d, ds, hds, _⟩ := natToChars_head m
          rw [dumps_num_ofNat_data, hds]
          simp [fuelV]
      | negSucc m =>
          rw [dumps_num_negSucc_data]
          simp [fuelV]
  | .str s => by
      rw [dumps_str_data]
      simp [fuelV]
  | .arr [] => by decide
  | .arr (x :: xs) => by
      have h1 := fuelV_le_dumps_len x
      have h2 := fuelE_le_tail_len xs
      rw [dumps_arr_cons_data]
      simp only [fuelV, List.length_cons, List.length_append]
      omega
  | .obj [] => by decide
  | .obj (kv :: fs) => by
      have h1 := fuelV_le_dumps_len kv.2
      have h2 := fuelF_le_tail_len fs
      rw [dumps_obj_cons_data]
      have hchunk : (dumpStr kv.1 ++ ": " ++ Json.dumps kv.2).data.length =
          (dumpStr kv.1).data.length + 2 + (Json.dumps kv.2).data.length := by
        simp [String.data_append]
        omega
      have hq : 2 ≤ (dumpStr kv.1).data.length := by
        have hd : (dumpStr kv.1).data = '"' :: (escapeList kv.1.data ++ ['"']) := by
          simp [dumpStr, String.data_append, asString_data_eq]
        rw [hd]
        simp
      simp only [fuelV, List.length_cons, List.length_append, hchunk]
      omega

theorem fuelE_le_tail_len : ∀ xs : List Json, fuelE xs ≤ (dumpsTailElems xs).data.length
  | [] => by simp [fuelE, dumpsTailElems]
  | x :: xs => by
      have h1 := fuelV_le_dumps_len x
      have h2 := fuelE_le_tail_len xs
      rw [tailElems_cons_data]
      simp only [fuelE, List.length_cons, List.length_append]
      omega

theorem fuelF_le_tail_len : ∀ fs : List (String × Json),
    fuelF fs ≤ (dumpsTailFields fs).data.length
  | [] => by simp [fuelF, dumpsTailFields]
  | kv :: fs => by
      have h1 := fuelV_le_dumps_len kv.2
      have h2 := fuelF_le_tail_len fs
      rw [tailFields_cons_data]
      have hchunk : (dumpStr kv.1 ++ ": " ++ Json.dumps kv.2).data.length =
          (dumpStr kv.1).data.length + 2 + (Json.dumps kv.2).data.length := by
        simp [String.data_append]
        omega
      have hq : 2 ≤ (dumpStr kv.1).data.length := by
        have hd : (dumpStr kv.1).data = '"' :: (escapeList kv.1.data ++ ['"']) := by
          simp [dumpStr, String.data_append, asString_data_eq]
        rw [hd]
        simp
      simp only [fuelF, List.length_cons, List.length_append, hchunk]
      omega
end

/-- The reader inverts `Json.dumps` on complete texts. -/
theorem parseJsonText_dumps (j : Json) : parseJsonText (Json.dumps j) = some j := by
  unfold parseJsonText
  have h := parseVal_dumps ((Json.dumps j).data.length + 1) j []
    (le_trans (fuelV_le_dumps_len j) (by omega)) rfl
  rw [List.append_nil] at h
  rw [h]

/-! ### The printed text is newline-free, so lines count records -/

theorem hexDigitChar_ne_nl {d : Nat} (h : d < 16) : hexDigitChar d ≠ '\n' := by
  interval_cases d <;> decide

theorem natToChars_all_digits (n : Nat) : ∀ c ∈ natToChars n, c.isDigit = true := by
  induction n using Nat.strong_induction_on with
  | _ n ih =>
      intro c hc
      by_cases h10 : n < 10
      · rw [show natToChars n = [digitChar n] by simp [natToChars, natToCharsCore, h10]] at hc
        simp only [List.mem_singleton] at hc
        rw [hc]
        exact digitChar_isDigit h10
      · have hdiv : n / 10 < n := Nat.div_lt_self (by omega) (by omega)
        have h2 : natToChars n = natToChars (n / 10) ++ [digitChar (n % 10)] := by
          have h3 : natToChars n = natToCharsCore n (n / 10) [digitChar (n % 10)] := by
            simp [natToChars, natToCharsCore, h10]
          rw [h3]
          exact natToCharsCore_eq_append (n / 10) n [digitChar (n % 10)] hdiv
        rw [h2, List.mem_append] at hc
        rcases hc with hc | hc
        · exact ih (n / 10) hdiv c hc
        · simp only [List.mem_singleton] at hc
          rw [hc]
          exact digitChar_isDigit (Nat.mod_lt _ (by omega))

theorem nl_not_mem_natToChars (n : Nat) : '\n' ∉ natToChars n := fun hmem =>
  absurd (natToChars_all_digits n '\n' hmem) (by decide)

theorem escapeChar_count_nl (c : Char) : (escapeChar c).count '\n' = 0 := by
  by_cases h1 : c = '"'
  · subst h1; decide
  · by_cases h2 : c = '\\'
    · subst h2; decide
    · by_cases h3 : c = '\x08'
      · subst h3; decide
      · by_cases h4 : c = '\x0c'
        · subst h4; decide
        · by_cases h5 : c = '\n'
          · subst h5; decide
          · by_cases h6 : c = '\r'
            · subst h6; decide
            · by_cases h7 : c = '\t'
              · subst h7; decide
              · by_cases h8 : c.toNat < 32
                · rw [show escapeChar c =
                    ['\\', 'u', '0', '0', hexDigitChar (c.toNat / 16),
                      hexDigitChar (c.toNat % 16)] by
                    rw [escapeChar, if_neg h1, if_neg h2, if_neg h3, if_neg h4, if_neg h5,
                      if_neg h6, if_neg h7, if_pos h8]]
                  rw [List.count_eq_zero]
                  intro hmem
                  simp only [List.mem_cons, List.not_mem_nil, or_false] at hmem
                  rcases hmem with h | h | h | h | h | h
                  · exact absurd h (by decide)
                  · exact absurd h (by decide)
                  · exact absurd h (by decide)
                  · exact absurd h (by decide)
                  · exact hexDigitChar_ne_nl (by omega) h.symm
                  · exact hexDigitChar_ne_nl (Nat.mod_lt _ (by omega)) h.symm
                · rw [show escapeChar c = [c] by
                    rw [escapeChar, if_neg h1, if_neg h2, if_neg h3, if_neg h4, if_neg h5,
                      if_neg h6, if_neg h7, if_neg h8]]
                  rw [List.count_eq_zero]
                  intro hmem
                  simp only [List.mem_singleton] at hmem
                  exact h5 hmem.symm

theorem escapeList_count_nl (cs : List Char) : (escapeList cs).count '\n' = 0 := by
  induction cs with
  | nil => rfl
  | cons c t ih =>
      have : escapeList (c :: t) = escapeChar c ++ escapeList t := by simp [escapeList]
      rw [this, List.count_append, escapeChar_count_nl, ih]

mutual
theorem dumps_count_nl : ∀ j : Json, ((Json.dumps j).data.count '\n') = 0
  | .null => by decide
  | .bool b => by cases b <;> decide
  | .num n => by
      cases n with
      | ofNat m =>
          rw [dumps_num_ofNat_data, List.count_eq_zero]
          exact nl_not_mem_natToChars m
      | negSucc m =>
          rw [dumps_num_negSucc_data, List.count_eq_zero]
          intro hmem
          rcases List.mem_cons.mp hmem with h | h
          · exact absurd h (by decide)
          · exact nl_not_mem_natToChars (m + 1) h
  | .str s => by
      rw [dumps_str_data, List.count_cons, List.count_append, escapeList_count_nl]
      decide
  | .arr [] => by decide
  | .arr (x :: xs) => by
      have h1 := dumps_count_nl x
      have h2 := tailElems_count_nl xs
      rw [dumps_arr_cons_data, List.count_cons, List.count_append, h1, h2]
      decide
  | .obj [] => by decide
  | .obj (kv :: fs) => by
      have h1 := dumps_count_nl kv.2
      have h2 := tailFields_count_nl fs
      have hk := escapeList_count_nl kv.1.data
      rw [dumps_obj_cons_data, List.count_cons, List.count_append, memberChunk_data,
        List.count_cons, List.count_append, List.count_cons, List.count_cons,
        List.count_cons, hk, h1, h2]
      decide

theorem tailElems_count_nl : ∀ xs : List Json, ((dumpsTailElems xs).data.count '\n') = 0
  | [] => by decide
  | x :: xs => by
      have h1 := dumps_count_nl x
      have h2 := tailElems_count_nl xs
      rw [tailElems_cons_data, List.count_cons, List.count_cons, List.count_append, h1, h2]
      decide

theorem tailFields_count_nl : ∀ fs : List (String × Json),
    ((dumpsTailFields fs).data.count '\n') = 0
  | [] => by decide
  | kv :: fs => by
      have h1 := dumps_count_nl kv.2
      have h2 := tailFields_count_nl fs
      have hk := escapeList_count_nl kv.1.data
      rw [tailFields_cons_data, List.count_cons, List.count_cons, List.count_append,
        memberChunk_data, List.count_cons, List.count_append, List.count_cons,
        List.count_cons, List.count_cons, hk, h1, h2]
      decide
end

theorem foldl_append_count_nl (items : List Obj) :
    ∀ acc : String,
      ((items.map (fun r => Json.dumps (Json.obj r) ++ "\n")).foldl
          (fun r s => r ++ s) acc).data.count '\n' =
        acc.data.count '\n' + items.length := by
  induction items with
  | nil => intro acc; simp
  | cons r t ih =>
      intro acc
      rw [List.map_cons, List.foldl_cons, ih]
      have hstep : (acc ++ (Json.dumps (Json.obj r) ++ "\n")).data.count '\n' =
          acc.data.count '\n' + 1 := by
        rw [String.data_append, List.count_append, String.data_append, List.count_append,
          dumps_count_nl (Json.obj r)]
        have hnl : List.count '\n' ("\n".data) = 1 := by decide
        omega
      rw [hstep, List.length_cons]
      omega

/-- Each record contributes exactly one newline-terminated line to the jsonl text. -/
theorem jsonl_line_count (items : List Obj) :
    (String.join (items.map (fun r => Json.dumps (Json.obj r) ++ "\n"))).data.count '\n' =
      items.length := by
  rw [String.join, foldl_append_count_nl items ""]
  have h0 : List.count '\n' ("".data) = 0 := by decide
  omega

/-! ### C5 -/

/-- C5 (amended): the jsonl text is exactly one `json.dumps`-serialized
record per successful outcome that carries a `doi` key, in processing
order, each line terminated by a newline; the line count equals the number
of such outcomes; each line parses back to the original record
(round-trip); and a batch with none of them yields empty text. -/
theorem claim_C5_jsonl (dois : List String) (u : Upstream) :
    (process_dois dois u).jsonl =
        String.join ((succWithDoi dois u).map (fun r => Json.dumps (Json.obj r) ++ "\n")) ∧
      ((process_dois dois u).jsonl.data.count '\n') = (succWithDoi dois u).length ∧
      (∀ r ∈ succWithDoi dois u,
        parseJsonText (Json.dumps (Json.obj r)) = some (Json.obj r)) ∧
      (succWithDoi dois u = [] → (process_dois dois u).jsonl = "") := by
  refine ⟨process_dois_jsonl dois u, ?_, fun r _ => parseJsonText_dumps (Json.obj r), ?_⟩
  · rw [process_dois_jsonl dois u, jsonl_line_count]
  · intro h
    rw [process_dois_jsonl dois u, h]
    rfl

/-- Witness for C5 at a concrete one-record batch. -/
theorem claim_C5_jsonl_witness :
    (process_dois ["10.1/a"] uEcho).jsonl =
        Json.dumps (Json.obj [("doi", Json.str "10.1/a"), ("x", Json.num 1)]) ++ "\n" ∧
      parseJsonText (Json.dumps (Json.obj [("doi", Json.str "10.1/a"), ("x", Json.num 1)])) =
        some (Json.obj [("doi", Json.str "10.1/a"), ("x", Json.num 1)]) :=
  ⟨((claim_C5_jsonl ["10.1/a"] uEcho).1).trans (by decide),
   (claim_C5_jsonl ["10.1/a"] uEcho).2.2.1
     [("doi", Json.str "10.1/a"), ("x", Json.num 1)] (by decide)⟩

/-- Counterexample to C5 as stated: a successful outcome without a `doi`
key is counted in `success` but not serialized, so the jsonl line count 0
differs from the success count 1. -/
theorem claim_C5_counterexample :
    (process_dois ["10.1/x"] uNoDoi).success = 1 ∧
      ((process_dois ["10.1/x"] uNoDoi).jsonl.data.count '\n') = 0 :=
  ⟨by decide, by decide⟩
